import Mathlib

/-!
Verification of the Questions-generator core pipeline (chunker, validator,
quality scorer, generation orchestrator) against its specification.

The Python sources are shallowly embedded: dictionaries become structures
with optional fields, in-place mutation becomes explicit state passing, and
`while` loops become fuel-indexed recursion (one unit of fuel per iteration,
with fuel chosen provably sufficient).  Strings are Lean `String`s; the
Python functions used (`str.split()`, `str.strip()`, `str.lower()`, ...)
are modelled on ASCII data, which covers every input appearing in the
claims and their witnesses.
-/

set_option maxRecDepth 100000

namespace QGen

/-! ## Python string helpers -/

/-- Worker for Python `str.split()` (no separator argument): walks the
character list accumulating the current word in `acc` (reversed), emitting
a word at each whitespace run, and dropping empty pieces. -/
def splitWSAux : List Char → List Char → List (List Char)
  | [], acc => if acc.isEmpty then [] else [acc.reverse]
  | c :: rest, acc =>
    if c.isWhitespace then
      if acc.isEmpty then splitWSAux rest [] else acc.reverse :: splitWSAux rest []
    else splitWSAux rest (c :: acc)

/-- Python `text.split()`: split on whitespace runs, dropping empties. -/
def pySplit (s : String) : List String :=
  (splitWSAux s.data []).map (fun cs => String.mk cs)

/-- Python `str.strip()` (no argument): remove leading and trailing
whitespace. -/
def pyStrip (s : String) : String :=
  String.mk (((s.data.dropWhile Char.isWhitespace).reverse.dropWhile
    Char.isWhitespace).reverse)

/-- Python `str.lower()` on ASCII. -/
def pyLower (s : String) : String := String.mk (s.data.map Char.toLower)

/-- Python `str.upper()` on ASCII. -/
def pyUpper (s : String) : String := String.mk (s.data.map Char.toUpper)

/-- Python `str.startswith(c)` for a single character. -/
def pyStartsWith (s : String) (c : Char) : Bool := s.data.head? == some c

/-- Python `str.endswith(c)` for a single character. -/
def pyEndsWith (s : String) (c : Char) : Bool := s.data.getLast? == some c

/-- Character-level worker for Python `' '.join`. -/
def joinSpace : List (List Char) → List Char
  | [] => []
  | [w] => w
  | w :: v :: rest => w ++ ' ' :: joinSpace (v :: rest)

/-- Python `' '.join(words)`. -/
def pyJoinSpace (ws : List String) : String :=
  String.mk (joinSpace (ws.map (fun w => w.data)))

/-! ## src/chunker.py -/

/-- The `while start < total_words` loop of `chunk_text` (chunker.py lines
57-76), producing the word-offset range `(start, end)` of each emitted
chunk.  `end = min(start + chunk_size, total)`; after emitting, `start`
advances by `step = chunk_size - overlap` and the loop breaks once
`end >= total`.  Fuel-indexed: `chunk_text` supplies fuel `total + 1`,
which suffices because `step ≥ 1` whenever `overlap < chunk_size`. -/
def chunkRangesAux (total chunk_size step : Nat) : Nat → Nat → List (Nat × Nat)
  | 0, _ => []
  | fuel + 1, start =>
    if start < total then
      (start, min (start + chunk_size) total) ::
        (if total ≤ min (start + chunk_size) total then []
         else chunkRangesAux total chunk_size step fuel (start + step))
    else []

/-- Word-offset ranges of the chunks produced by `chunk_text`. -/
def chunk_ranges (total chunk_size overlap : Nat) : List (Nat × Nat) :=
  chunkRangesAux total chunk_size (chunk_size - overlap) (total + 1) 0

/-- `chunk_text(text, chunk_size, overlap)` (chunker.py lines 10-85).
`not text or not text.strip()` is modelled as "every character is
whitespace" (equivalent: a string is falsy iff empty, and `strip()` is
falsy iff no non-whitespace character exists).  The `overlap >= chunk_size`
clamp sets overlap to `chunk_size // 4`.  Each chunk is
`' '.join(words[start:end])`. -/
def chunk_text (text : String) (chunk_size overlap : Nat) : List String :=
  if text.data.all (fun c => c.isWhitespace) then []
  else
    let ov := if chunk_size ≤ overlap then chunk_size / 4 else overlap
    let words := pySplit text
    let total := words.length
    if total ≤ chunk_size then [text]
    else
      (chunk_ranges total chunk_size ov).map
        (fun r => pyJoinSpace ((words.drop r.1).take (r.2 - r.1)))

/-- Characters of a text consisting of `n` words "w" separated (and
followed) by single spaces. -/
def repWChars : Nat → List Char
  | 0 => []
  | n + 1 => 'w' :: ' ' :: repWChars n

/-- A concrete text of `n` whitespace-separated words. -/
def wordText (n : Nat) : String := String.mk (repWChars n)

/-! ## Question dictionaries (src/validator.py data model) -/

/-- The `options` field of a raw question dictionary: either a JSON array
of four option texts or a labeled map.  The map is an association list in
insertion order (Python dicts preserve insertion order and have unique
keys). -/
inductive OptionsVal where
  | olist (vs : List String)
  | omap (m : List (String × String))
deriving DecidableEq, Repr

/-- A question dictionary; absent keys are `none`.  Field values are
strings, matching the GenerationItem schema. -/
structure Question where
  question : Option String := none
  options : Option OptionsVal := none
  answer : Option String := none
  category : Option String := none
  difficulty : Option String := none
  explanation : Option String := none
deriving DecidableEq, Repr

/-- Python `key in dict`. -/
def hasKey (m : List (String × String)) (k : String) : Bool :=
  m.any (fun p => p.1 == k)

/-- Python `dict[key]` (first binding; Python keys are unique). -/
def mlookup (m : List (String × String)) (k : String) : Option String :=
  (m.find? (fun p => p.1 == k)).map (fun p => p.2)

/-! ## difflib.SequenceMatcher

`ratio()` is `2*M / T` where `T` is the total length of the two sequences
and `M` the total size of the matching blocks found by recursively taking
the leftmost longest common contiguous block.  The `autojunk` heuristic
(which only alters the outcome when the second sequence has at least 200
elements) and the junk parameter (always `None` in this code base) are not
modelled. -/

/-- Length of the common run of two lists starting at their heads. -/
def commonRun : List Char → List Char → Nat
  | x :: xs, y :: ys => if x = y then commonRun xs ys + 1 else 0
  | _, _ => 0

/-- `find_longest_match` on the ranges `[alo,ahi) × [blo,bhi)`: the triple
`(i, j, k)` of the longest common contiguous block, taking the first in
the scan order (i ascending, then j ascending) on ties — i.e. the
earliest block in `a`, then in `b`, exactly as difflib picks it. -/
def findLongestMatch (a b : List Char) (alo ahi blo bhi : Nat) : Nat × Nat × Nat :=
  (List.range' alo (ahi - alo)).foldl
    (fun best i =>
      (List.range' blo (bhi - blo)).foldl
        (fun best j =>
          let k := commonRun ((a.take ahi).drop i) ((b.take bhi).drop j)
          if best.2.2 < k then (i, j, k) else best)
        best)
    (alo, blo, 0)

/-- Total size of all matching blocks (`get_matching_blocks` without the
block list): recursively split around the longest match.  Fuel-indexed;
the range measure `(ahi-alo)+(bhi-blo)` strictly decreases at each level,
so fuel `a.length + b.length + 1` always suffices. -/
def totalMatchAux (a b : List Char) : Nat → Nat → Nat → Nat → Nat → Nat
  | 0, _, _, _, _ => 0
  | fuel + 1, alo, ahi, blo, bhi =>
    let best := findLongestMatch a b alo ahi blo bhi
    if best.2.2 = 0 then 0
    else totalMatchAux a b fuel alo best.1 blo best.2.1 + best.2.2 +
         totalMatchAux a b fuel (best.1 + best.2.2) ahi (best.2.1 + best.2.2) bhi

/-- Total matched size between two whole sequences. -/
def totalMatch (a b : List Char) : Nat :=
  totalMatchAux a b (a.length + b.length + 1) 0 a.length 0 b.length

/-- `SequenceMatcher(None, a, b).ratio()` as an exact rational
(difflib returns 1.0 when both sequences are empty). -/
def ratioQ (a b : List Char) : ℚ :=
  if a.length + b.length = 0 then 1
  else mkRat (2 * totalMatch a b) (a.length + b.length)

/-- Python string comparison `x > y` (lexicographic on code points). -/
def lexGtChars : List Char → List Char → Bool
  | [], _ => false
  | _ :: _, [] => true
  | x :: xs, y :: ys => if x = y then lexGtChars xs ys else y < x

/-- `difflib.get_close_matches(word, possibilities, n=1, cutoff=0.8)`,
returning the single best match if any possibility reaches the cutoff:
the qualifying entries are ranked by `(ratio, string)` exactly as
`heapq.nlargest` ranks the `(ratio, possibility)` pairs, keeping the
first maximum.  `SequenceMatcher` is seeded with `a = possibility` and
`b = word`, as in difflib. -/
def get_close_match1 (word : String) (poss : List String) : Option String :=
  match poss.filterMap (fun x =>
    if mkRat 4 5 ≤ ratioQ x.data word.data then some (ratioQ x.data word.data, x)
    else none) with
  | [] => none
  | p :: ps =>
    some ((ps.foldl (fun best q =>
      if best.1 < q.1 ∨ (best.1 = q.1 ∧ lexGtChars q.2.data best.2.data) then q else best) p).2)

/-! ## src/validator.py: QuestionValidator -/

/-- The mutable counters of a `QuestionValidator` (validator.py lines
35-45). -/
structure Stats where
  total_input : Nat := 0
  total_output : Nat := 0
  missing_keys : Nat := 0
  invalid_length : Nat := 0
  invalid_options : Nat := 0
  invalid_answer : Nat := 0
  duplicates : Nat := 0
  factual_issues : Nat := 0
  auto_corrected : Nat := 0
deriving DecidableEq, Repr

/-- The mutable state of a `QuestionValidator`: the duplicate corpus
`seen_questions` (a Python set, modelled as its insertion-ordered list —
exact membership plus an order-independent fuzzy scan make the order
irrelevant) and the counters. -/
structure VState where
  seen_questions : List String := []
  stats : Stats := {}
deriving DecidableEq, Repr

/-- Python regex `\w` on ASCII: letters, digits, underscore. -/
def isWordChar (c : Char) : Bool :=
  c.isAlphanum || c == '_'

/-- `_normalize_text` (validator.py lines 50-67): lowercase, delete the
characters matching `[^\w\s]`, collapse whitespace runs to single spaces
and strip the ends (joining the whitespace-split words with single spaces
gives exactly the result of `re.sub` plus `strip`). -/
def normalize_text (s : String) : String :=
  let kept := (pyLower s).data.filter (fun c => isWordChar c || c.isWhitespace)
  pyJoinSpace ((splitWSAux kept []).map (fun cs => String.mk cs))

/-- `_is_duplicate` (validator.py lines 69-94): exact membership of the
normalized text in the corpus, then a fuzzy scan of the corpus at
similarity threshold 0.85 = 17/20; a non-duplicate is added to the
corpus. -/
def is_duplicate (question_text : String) (seen : List String) : Bool × List String :=
  if normalize_text question_text ∈ seen then (true, seen)
  else if seen.any (fun s =>
      decide (mkRat 17 20 ≤ ratioQ (normalize_text question_text).data s.data)) then
    (true, seen)
  else (false, seen ++ [normalize_text question_text])

/-- The six required fields of `_validate_schema` (validator.py line
106). -/
def has_required_fields (q : Question) : Prop :=
  q.question.isSome ∧ q.options.isSome ∧ q.answer.isSome ∧
  q.category.isSome ∧ q.difficulty.isSome ∧ q.explanation.isSome

instance (q : Question) : Decidable (has_required_fields q) :=
  inferInstanceAs (Decidable (_ ∧ _ ∧ _ ∧ _ ∧ _ ∧ _))

/-- `_validate_schema` (validator.py lines 96-112). -/
def validate_schema (q : Question) (st : Stats) : Bool × Stats :=
  if has_required_fields q then (true, st)
  else (false, { st with missing_keys := st.missing_keys + 1 })

/-- The length test of `_validate_text_length` (validator.py line 126). -/
def question_length_bad (q : Question) : Prop :=
  (q.question.getD "").length < 20 ∨ 300 < (q.question.getD "").length

instance (q : Question) : Decidable (question_length_bad q) :=
  inferInstanceAs (Decidable (_ ∨ _))

/-- `_validate_text_length` (validator.py lines 114-130). -/
def validate_text_length (q : Question) (st : Stats) : Bool × Stats :=
  if question_length_bad q then (false, { st with invalid_length := st.invalid_length + 1 })
  else (true, st)

/-- The checks `_validate_and_fix_options` runs on the (converted) map
(validator.py lines 158-174): the four keys A-D present, the four values
under them non-blank, and ALL values of the map pairwise distinct
(`len(options.values()) == len(set(options.values()))`).  Note the key
set is not required to be exactly A,B,C,D and extra values are not
checked for blankness. -/
def options_map_ok (m : List (String × String)) : Prop :=
  (hasKey m "A" ∧ hasKey m "B" ∧ hasKey m "C" ∧ hasKey m "D") ∧
  (∀ k ∈ (["A", "B", "C", "D"] : List String), pyStrip ((mlookup m k).getD "") ≠ "") ∧
  (m.map (fun p => p.2)).dedup.length = (m.map (fun p => p.2)).length

instance (m : List (String × String)) : Decidable (options_map_ok m) :=
  inferInstanceAs (Decidable (_ ∧ _ ∧ _))

/-- `_validate_and_fix_options` (validator.py lines 132-176): a 4-element
list is converted in place to the map A-D (a list of any other length is
rejected before conversion); a map is checked by `options_map_ok`; a
missing field (`question.get("options", {})`) fails the required-keys
check. -/
def validate_and_fix_options (q : Question) (st : Stats) : Bool × Question × Stats :=
  match q.options with
  | some (OptionsVal.olist [v1, v2, v3, v4]) =>
    if options_map_ok [("A", v1), ("B", v2), ("C", v3), ("D", v4)] then
      (true, { q with options := some (OptionsVal.omap [("A", v1), ("B", v2), ("C", v3), ("D", v4)]) }, st)
    else
      (false, { q with options := some (OptionsVal.omap [("A", v1), ("B", v2), ("C", v3), ("D", v4)]) },
       { st with invalid_options := st.invalid_options + 1 })
  | some (OptionsVal.olist _) =>
    (false, q, { st with invalid_options := st.invalid_options + 1 })
  | some (OptionsVal.omap m) =>
    if options_map_ok m then (true, q, st)
    else (false, q, { st with invalid_options := st.invalid_options + 1 })
  | none =>
    if options_map_ok [] then (true, q, st)
    else (false, q, { st with invalid_options := st.invalid_options + 1 })

/-- The answer-resolution cascade of `_validate_and_fix_answer`
(validator.py lines 189-228): key normalization (`strip().upper()` in
A-D), then the first option whose value matches the answer text up to
`strip().lower()`, then `get_close_matches(answer, values, 1, 0.8)`
mapped back to the first key carrying the matched value.  Returns the
resolved key and whether the resolution counts as an auto-correction. -/
def resolve_answer (answer : String) (m : List (String × String)) : Option (String × Bool) :=
  if pyUpper (pyStrip answer) = "A" ∨ pyUpper (pyStrip answer) = "B" ∨
     pyUpper (pyStrip answer) = "C" ∨ pyUpper (pyStrip answer) = "D" then
    some (pyUpper (pyStrip answer), false)
  else
    match m.find? (fun p => pyLower (pyStrip p.2) == pyLower (pyStrip answer)) with
    | some p => some (p.1, true)
    | none =>
      match get_close_match1 answer (m.map (fun p => p.2)) with
      | some best =>
        match m.find? (fun p => p.2 == best) with
        | some p => some (p.1, true)
        | none => none
      | none => none

/-- `_validate_and_fix_answer` (validator.py lines 178-228).  In the
validation pipeline `options` is always a labeled map at this point; the
other shapes fall back to the empty map of `question.get("options", {})`. -/
def optionsDict (q : Question) : List (String × String) :=
  match q.options with
  | some (OptionsVal.omap mm) => mm
  | _ => []

def validate_and_fix_answer (q : Question) (st : Stats) : Bool × Question × Stats :=
  match resolve_answer (q.answer.getD "") (optionsDict q) with
  | some kb =>
    (true, { q with answer := some kb.1 },
     if kb.2 then { st with auto_corrected := st.auto_corrected + 1 } else st)
  | none => (false, q, { st with invalid_answer := st.invalid_answer + 1 })

/-- Python `str.title()` on ASCII: a letter is uppercased after a
non-letter and lowercased after a letter. -/
def pyTitleAux : Bool → List Char → List Char
  | _, [] => []
  | prevAlpha, c :: rest =>
    if c.isAlpha then
      (if prevAlpha then c.toLower else c.toUpper) :: pyTitleAux true rest
    else c :: pyTitleAux false rest

def pyTitle (s : String) : String := String.mk (pyTitleAux false s.data)

/-- `_normalize_category` (validator.py lines 230-239): a non-empty
category is replaced by `category.strip().title()`. -/
def normalize_category (q : Question) : Question :=
  if q.category.getD "" = "" then q
  else { q with category := some (pyTitle (pyStrip (q.category.getD ""))) }

/-- `_normalize_difficulty` (validator.py lines 241-272): the
`strip().lower()` of the difficulty is mapped through the synonym table
(easy/simple/basic, medium/intermediate, hard/difficult/advanced/
challenging) and defaults to "Medium"; always succeeds (the source
returns True unconditionally and the caller ignores the value). -/
def canonDifficulty (d : String) : String :=
  if d = "easy" ∨ d = "simple" ∨ d = "basic" then "Easy"
  else if d = "medium" ∨ d = "intermediate" then "Medium"
  else if d = "hard" ∨ d = "difficult" ∨ d = "advanced" ∨ d = "challenging" then "Hard"
  else "Medium"

def normalize_difficulty (q : Question) : Question :=
  { q with difficulty := some (canonDifficulty (pyLower (pyStrip (q.difficulty.getD "")))) }

/-- The rejection tests of `_check_factual_issues` (validator.py lines
284-299): leading "?" or ".", purely-numeric text
(`strip().replace(" ", "").isdigit()`, false on empty), or no
`[a-zA-Z]` letter. -/
def factual_issue (t : String) : Prop :=
  pyStartsWith t '?' ∨ pyStartsWith t '.' ∨
  ((pyStrip t).data.filter (fun c => c ≠ ' ') ≠ [] ∧
    ∀ c ∈ (pyStrip t).data.filter (fun c => c ≠ ' '), c.isDigit) ∨
  ¬ ∃ c ∈ t.data, c.isAlpha = true

instance (t : String) : Decidable (factual_issue t) :=
  inferInstanceAs (Decidable (_ ∨ _ ∨ _ ∨ _))

/-- `_check_factual_issues` (validator.py lines 274-301). -/
def check_factual_issues (q : Question) (st : Stats) : Bool × Stats :=
  if factual_issue (q.question.getD "") then
    (false, { st with factual_issues := st.factual_issues + 1 })
  else (true, st)

/-- `validate_question` (validator.py lines 303-342): the sequential
checks, each able to reject, then the always-succeeding category and
difficulty normalization.  Returns the acceptance flag, the (possibly
mutated) question, and the updated validator state. -/
def validate_question (q : Question) (vs : VState) : Bool × Question × VState :=
  match validate_schema q vs.stats with
  | (false, st) => (false, q, { vs with stats := st })
  | (true, st) =>
    match validate_text_length q st with
    | (false, st2) => (false, q, { vs with stats := st2 })
    | (true, st2) =>
      match validate_and_fix_options q st2 with
      | (false, q3, st3) => (false, q3, { vs with stats := st3 })
      | (true, q3, st3) =>
        match validate_and_fix_answer q3 st3 with
        | (false, q4, st4) => (false, q4, { vs with stats := st4 })
        | (true, q4, st4) =>
          match check_factual_issues q4 st4 with
          | (false, st5) => (false, q4, { vs with stats := st5 })
          | (true, st5) =>
            match is_duplicate (q4.question.getD "") vs.seen_questions with
            | (true, seen) =>
              (false, q4, { seen_questions := seen,
                            stats := { st5 with duplicates := st5.duplicates + 1 } })
            | (false, seen) =>
              (true, normalize_difficulty (normalize_category q4),
               { seen_questions := seen, stats := st5 })

/-- The filtering loop of `validate_questions` (validator.py lines
363-367). -/
def validate_questions_loop : List Question → VState → List Question × VState
  | [], vs => ([], vs)
  | q :: rest, vs =>
    (if (validate_question q vs).1 then
       (validate_question q vs).2.1 ::
         (validate_questions_loop rest (validate_question q vs).2.2).1
     else (validate_questions_loop rest (validate_question q vs).2.2).1,
     (validate_questions_loop rest (validate_question q vs).2.2).2)

/-- `validate_questions` (validator.py lines 344-383): overwrites
`total_input`, clears the duplicate corpus, filters, and overwrites
`total_output`.  The rejection counters and `auto_corrected` are NOT
reset.  The printed summary and the report file are I/O, not modelled
(the report renders `self.stats` as returned here). -/
def validate_questions (qs : List Question) (vs : VState) : List Question × VState :=
  ((validate_questions_loop qs
      { seen_questions := [], stats := { vs.stats with total_input := qs.length } }).1,
   { seen_questions :=
       (validate_questions_loop qs
         { seen_questions := [],
           stats := { vs.stats with total_input := qs.length } }).2.seen_questions,
     stats :=
       { (validate_questions_loop qs
           { seen_questions := [],
             stats := { vs.stats with total_input := qs.length } }).2.stats with
         total_output :=
           (validate_questions_loop qs
             { seen_questions := [],
               stats := { vs.stats with total_input := qs.length } }).1.length } })

/-! ## src/quality_scorer.py: QualityScorer

Python floats are modelled as exact rationals; every constant in the
scorer is an exact decimal fraction, so the arithmetic coincides.  The
only non-rational source value is `std_dev = variance ** 0.5`, which is
compared against constants only; the comparisons are modelled on the
(exact) variance against the squared constants. -/

/-- Variance of the option text lengths
(quality_scorer.py lines 87-92). -/
def optionLengthVariance (vals : List String) : ℚ :=
  let lengths := vals.map (fun v => (v.length : ℚ))
  let avg := lengths.sum / lengths.length
  (lengths.map (fun l => (l - avg) ^ 2)).sum / lengths.length

/-- The pre-bonus clarity score of `_score_question_clarity`
(quality_scorer.py lines 44-54). -/
def clarityBase (q : Question) : ℚ :=
  if 30 ≤ (q.question.getD "").length ∧ (q.question.getD "").length ≤ 200 then 1
  else if (q.question.getD "").length < 30 then ((q.question.getD "").length : ℚ) / 30
  else max 0 (1 - min ((((q.question.getD "").length : ℚ) - 200) / 100) 1)

/-- `_score_question_clarity` (quality_scorer.py lines 30-60): the base
score plus the capped question-mark bonus. -/
def score_question_clarity (q : Question) : ℚ :=
  if pyEndsWith (pyStrip (q.question.getD "")) '?' then min 1 (clarityBase q + 1 / 10)
  else clarityBase q

/-- `_score_balanced_options` (quality_scorer.py lines 62-102): 0 unless
`options` is a dict of size 4; half a point for 4 distinct values (else
`len(set)/8`), and up to half a point for balanced lengths, branching on
`std_dev < 10 / 20 / 30` i.e. variance < 100 / 400 / 900.  The
`if lengths:` guard is always true here (4 values). -/
def distinctScore (vals : List String) : ℚ :=
  if vals.dedup.length = 4 then 1 / 2 else (vals.dedup.length : ℚ) / 8

def balanceScore (vals : List String) : ℚ :=
  if optionLengthVariance vals < 100 then 1 / 2
  else if optionLengthVariance vals < 400 then 3 / 10
  else if optionLengthVariance vals < 900 then 1 / 10
  else 0

def score_balanced_options (q : Question) : ℚ :=
  match q.options with
  | some (OptionsVal.omap m) =>
    if m.length = 4 then
      min 1 (distinctScore (m.map (fun p => p.2)) + balanceScore (m.map (fun p => p.2)))
    else 0
  | _ => 0

/-- Python `answer in options`: key membership for a dict, element
membership for a list, false for the `{}` default of a missing field. -/
def answer_in_options (answer : String) (o : Option OptionsVal) : Prop :=
  match o with
  | some (OptionsVal.omap m) => hasKey m answer
  | some (OptionsVal.olist vs) => answer ∈ vs
  | none => False

instance (answer : String) (o : Option OptionsVal) :
    Decidable (answer_in_options answer o) :=
  match o with
  | some (OptionsVal.omap m) => inferInstanceAs (Decidable (hasKey m answer = true))
  | some (OptionsVal.olist vs) => inferInstanceAs (Decidable (answer ∈ vs))
  | none => inferInstanceAs (Decidable False)

/-- `_score_valid_answer` (quality_scorer.py lines 104-121). -/
def score_valid_answer (q : Question) : ℚ :=
  if q.answer.getD "" ∈ (["A", "B", "C", "D"] : List String) ∧
     answer_in_options (q.answer.getD "") q.options then 1 else 0

/-- The pre-bonus explanation score of `_score_explanation_quality`
(quality_scorer.py lines 138-146). -/
def explanationBase (q : Question) : ℚ :=
  if 50 ≤ (pyStrip (q.explanation.getD "")).length then 1
  else if 15 ≤ (pyStrip (q.explanation.getD "")).length then 4 / 5
  else ((pyStrip (q.explanation.getD "")).length : ℚ) / 15 * (1 / 2)

/-- `_score_explanation_quality` (quality_scorer.py lines 123-152): 0 on
a blank explanation, otherwise the base score plus the capped
full-stop bonus. -/
def score_explanation_quality (q : Question) : ℚ :=
  if pyStrip (q.explanation.getD "") = "" then 0
  else if pyEndsWith (pyStrip (q.explanation.getD "")) '.' then
    min 1 (explanationBase q + 1 / 10)
  else explanationBase q

/-- `_score_metadata_quality` (quality_scorer.py lines 154-177). -/
def score_metadata_quality (q : Question) : ℚ :=
  (if q.category.getD "" ≠ "" ∧ pyStrip (q.category.getD "") ≠ "" ∧
      3 ≤ (q.category.getD "").length then (1 : ℚ) / 2 else 0) +
  (if q.difficulty.getD "" = "Easy" ∨ q.difficulty.getD "" = "Medium" ∨
      q.difficulty.getD "" = "Hard" then (1 : ℚ) / 2 else 0)

/-- Python `round(x, 3)`.  Ties (an exact multiple of 1/2000) round
half-to-even in Python; no value in this development sits on a tie, so
round-half-up is used. -/
def round3 (x : ℚ) : ℚ := (round (x * 1000) : ℚ) / 1000

/-- `score_question_quality` (quality_scorer.py lines 179-205): the
weighted total of the five sub-scores, every weight 0.2 = 1/5, rounded to
3 decimal places. -/
def score_question_quality (q : Question) : ℚ :=
  round3 (score_question_clarity q * (1 / 5) + score_balanced_options q * (1 / 5) +
          score_valid_answer q * (1 / 5) + score_explanation_quality q * (1 / 5) +
          score_metadata_quality q * (1 / 5))

/-! ## src/generator.py and src/generator_optimized.py

The external generation service is abstracted as an oracle giving the
outcome of each attempted call.  Real time (backoff sleeps, timestamps,
durations) is not modelled; a log entry keeps its error category and
chunk index. -/

/-- Outcome of one attempted API call: the call raises (transport error),
or returns text that fails JSON parsing (or parses to a non-list), or
returns text parsing to a list of raw items. -/
inductive AttemptOutcome where
  | apiError
  | badParse
  | items (qs : List Question)
deriving DecidableEq, Repr

/-- `_validate_question` of the generators (generator.py lines 162-189):
required fields present, `options` a dict containing the keys A-D, and
`answer` one of A/B/C/D. -/
def gen_validate_question (q : Question) : Bool :=
  (q.question.isSome && q.options.isSome && q.answer.isSome &&
   q.category.isSome && q.difficulty.isSome && q.explanation.isSome) &&
  (match q.options with
   | some (OptionsVal.omap m) =>
     hasKey m "A" && hasKey m "B" && hasKey m "C" && hasKey m "D"
   | _ => false) &&
  (["A", "B", "C", "D"] : List String).contains (q.answer.getD "")

/-- `_parse_response` (generator.py lines 123-160): a parse failure
yields `[]` (the `json.JSONDecodeError` is caught inside and never
escapes); a parsed list is filtered by `_validate_question`. -/
def parse_response : AttemptOutcome → List Question
  | AttemptOutcome.apiError => []
  | AttemptOutcome.badParse => []
  | AttemptOutcome.items qs => qs.filter gen_validate_question

/-- The per-run statistics fields of a generator plus its error log. -/
structure GenStats where
  failed_chunks : List Nat := []
  total_api_calls : Nat := 0
  successful_calls : Nat := 0
  error_log : List (String × Nat) := []
deriving DecidableEq, Repr

/-- The `for attempt in range(max_retries)` loop of `generate_from_chunk`
(generator.py lines 240-277; generator_optimized.py lines 194-221), with
one unit of fuel per remaining attempt.  On a transport error at the last
attempt the error is logged and the chunk index appended to
`failed_chunks`; an empty parse at the last attempt just falls out of the
loop (the outer `except json.JSONDecodeError` of generator.py is
unreachable, since `_parse_response` catches it and returns `[]`). -/
def attemptLoop (oracle : Nat → AttemptOutcome) (chunk_index max_retries : Nat) :
    Nat → Nat → GenStats → List Question × GenStats
  | 0, _, gs => ([], gs)
  | remaining + 1, attempt, gs =>
    match oracle attempt with
    | AttemptOutcome.apiError =>
      if attempt = max_retries - 1 then
        ([], { gs with
               failed_chunks := gs.failed_chunks ++ [chunk_index],
               error_log := gs.error_log ++ [("API_ERROR", chunk_index)] })
      else attemptLoop oracle chunk_index max_retries remaining (attempt + 1) gs
    | out =>
      let questions := parse_response out
      if questions = [] then
        attemptLoop oracle chunk_index max_retries remaining (attempt + 1) gs
      else (questions, { gs with successful_calls := gs.successful_calls + 1 })

/-- `generate_from_chunk` (generator.py lines 215-278 and
generator_optimized.py lines 179-223, identical but for the retry default
and backoff timing): bump `total_api_calls`, then run the attempt loop. -/
def generate_from_chunk (oracle : Nat → AttemptOutcome)
    (chunk_index max_retries : Nat) (gs : GenStats) : List Question × GenStats :=
  attemptLoop oracle chunk_index max_retries max_retries 0
    { gs with total_api_calls := gs.total_api_calls + 1 }

/-- Python `list[:n]` for a possibly negative `n`. -/
def pySliceTo {α : Type} (l : List α) (n : Int) : List α :=
  if 0 ≤ n then l.take n.toNat else l.take (l.length - (-n).toNat)

/-- The per-chunk loop of `generate_questions` (generator.py lines
322-343), one unit of fuel per remaining chunk: break once
`remaining = total_questions - len(all_questions) <= 0`, otherwise call
the chunk and extend.  `questions_needed` only parameterizes the prompt
sent to the external service, which the oracle abstracts, so it does not
appear; the rate-limit sleep is timing, not modelled. -/
def generate_questions_loop (oracle : Nat → Nat → AttemptOutcome)
    (total_questions : Int) (max_retries : Nat) :
    Nat → Nat → List Question → GenStats → List Question × GenStats
  | 0, _, acc, gs => (acc, gs)
  | left + 1, i, acc, gs =>
    if total_questions - acc.length ≤ 0 then (acc, gs)
    else
      let r := generate_from_chunk (oracle i) i max_retries gs
      generate_questions_loop oracle total_questions max_retries left (i + 1) (acc ++ r.1) r.2

/-- The statistics dictionary returned by `generate_questions`: either
the configuration-error dictionary `{"error": ...}` or the full run
statistics (durations and throughput are wall-clock time, not
modelled). -/
inductive RunStats where
  | configError (msg : String)
  | stats (total_generated : Nat) (target_count : Int)
      (chunks_processed chunks_failed api_calls_total api_calls_successful : Nat)
deriving DecidableEq, Repr

/-- Whether the returned statistics are the configuration-error
dictionary. -/
def isConfigError : RunStats → Bool
  | RunStats.configError _ => true
  | RunStats.stats _ _ _ _ _ _ => false

/-- The observable outcome of a call to `generate_questions`: a normal
return of `(all_questions, stats)`, or an uncaught exception propagating
to the caller (the call never returns a value). -/
inductive RunOutcome where
  | raised (exc : String)
  | returns (items : List Question) (st : RunStats)
deriving DecidableEq, Repr

/-- Whether the run returned normally with the configuration-error
dictionary (a raised exception is not an error statistic: the caller
receives no statistics at all). -/
def runConfigError : RunOutcome → Bool
  | RunOutcome.raised _ => false
  | RunOutcome.returns _ st => isConfigError st

/-- `generate_questions` (generator.py lines 280-376): an empty chunk
list returns `([], {"error": "No chunks provided"})`; otherwise the
statistics are reset, each chunk is processed in order until the target
is reached, the accumulated list is cut to
`all_questions[:total_questions]`, and the summary is printed.  The
summary line `Success rate: {len(all_questions)/total_questions*100:.1f}`
(line 370) runs unconditionally and divides by `total_questions`, so a
call with a nonempty chunk list and `total_questions = 0` raises
`ZeroDivisionError` instead of returning (with `total_questions = 0` the
chunk loop breaks before any service call, so the raise is the only
observable event of such a call; a negative `total_questions` divides
fine and returns normally). -/
def generate_questions (oracle : Nat → Nat → AttemptOutcome) (nchunks : Nat)
    (total_questions : Int) (max_retries : Nat) : RunOutcome :=
  if nchunks = 0 then RunOutcome.returns [] (RunStats.configError "No chunks provided")
  else if total_questions = 0 then RunOutcome.raised "ZeroDivisionError"
  else
    RunOutcome.returns
      (pySliceTo
        (generate_questions_loop oracle total_questions max_retries nchunks 0 [] {}).1
        total_questions)
      (RunStats.stats
        (pySliceTo
          (generate_questions_loop oracle total_questions max_retries nchunks 0 [] {}).1
          total_questions).length
        total_questions nchunks
        (generate_questions_loop oracle total_questions max_retries
          nchunks 0 [] {}).2.failed_chunks.length
        (generate_questions_loop oracle total_questions max_retries
          nchunks 0 [] {}).2.total_api_calls
        (generate_questions_loop oracle total_questions max_retries
          nchunks 0 [] {}).2.successful_calls)

/-! ## Auxiliary notions for the claims -/

/-- The fields of a question the validator never writes. -/
def qeProj (q : Question) : Option String × Option String :=
  (q.question, q.explanation)

/-- Pointwise order on the per-reason rejection counters and the
auto-correction counter (the counters `validate_questions` never
resets). -/
def StatsMono (s t : Stats) : Prop :=
  s.missing_keys ≤ t.missing_keys ∧ s.invalid_length ≤ t.invalid_length ∧
  s.invalid_options ≤ t.invalid_options ∧ s.invalid_answer ≤ t.invalid_answer ∧
  s.duplicates ≤ t.duplicates ∧ s.factual_issues ≤ t.factual_issues ∧
  s.auto_corrected ≤ t.auto_corrected

/-- A well-formed item whose options map carries the extra keys E
(non-blank, targeted by the answer text) and F (blank). -/
def qExtraKeys : Question :=
  { question := some "What is the capital of Cameroon?"
    options := some (OptionsVal.omap
      [("A", "Douala"), ("B", "Yaounde"), ("C", "Buea"), ("D", "Bamenda"),
       ("E", "Extra"), ("F", "")])
    answer := some "Extra"
    category := some "geography"
    difficulty := some "easy"
    explanation := some "Test." }

/-- A fully well-formed item with exactly the four options A-D. -/
def qGood : Question :=
  { question := some "What is the capital of Cameroon?"
    options := some (OptionsVal.omap
      [("A", "Douala"), ("B", "Yaounde"), ("C", "Buea"), ("D", "Bamenda")])
    answer := some "B"
    category := some "geography"
    difficulty := some "easy"
    explanation := some "Yaounde is the political capital." }

/-- An item whose answer text equals option C but also matches option A
up to case. -/
def qCaseClash : Question :=
  { question := some "What is the capital of Cameroon?"
    options := some (OptionsVal.omap
      [("A", "rome"), ("B", "x1"), ("C", "Rome"), ("D", "z2")])
    answer := some "Rome"
    category := some "geography"
    difficulty := some "easy"
    explanation := some "Test." }

/-- An item whose answer text is exactly option C, with no earlier
case-variant. -/
def qTextAnswer : Question :=
  { question := some "What is the capital of Italy?"
    options := some (OptionsVal.omap
      [("A", "Paris"), ("B", "London"), ("C", "Rome"), ("D", "Berlin")])
    answer := some "Rome"
    category := some "geography"
    difficulty := some "easy"
    explanation := some "Test." }

/-- An item whose answer resolves by no path (no key, no exact text, no
fuzzy match at 0.8). -/
def qNoAnswer : Question :=
  { question := some "What is the capital of Italy?"
    options := some (OptionsVal.omap
      [("A", "Paris"), ("B", "London"), ("C", "Rome"), ("D", "Berlin")])
    answer := some "zzzz"
    category := some "geography"
    difficulty := some "easy"
    explanation := some "Test." }

/-- First item of the duplicate-screening scenario. -/
def qFrance1 : Question :=
  { question := some "What is the capital of France?"
    options := some (OptionsVal.omap
      [("A", "Paris"), ("B", "London"), ("C", "Rome"), ("D", "Berlin")])
    answer := some "A"
    category := some "geography"
    difficulty := some "easy"
    explanation := some "Paris is the capital." }

/-- Second item: question differs from `qFrance1` only in casing and
punctuation. -/
def qFrance2 : Question :=
  { question := some "what is the capital of france"
    options := some (OptionsVal.omap
      [("A", "Paris"), ("B", "London"), ("C", "Rome"), ("D", "Berlin")])
    answer := some "A"
    category := some "geography"
    difficulty := some "easy"
    explanation := some "Paris is the capital." }

/-- A maximally well-formed item for the quality scorer. -/
def qPerfect : Question :=
  { question := some "What is the capital city of Cameroon?"
    options := some (OptionsVal.omap
      [("A", "Douala"), ("B", "Yaound"), ("C", "Bament"), ("D", "Garoua")])
    answer := some "B"
    category := some "Geography"
    difficulty := some "Easy"
    explanation := some "Yaound has been the seat of government of Cameroon since independence." }

/-! ## Chunker lemmas -/

/-- An all-whitespace character list splits to no words. -/
lemma splitWSAux_allWS (cs : List Char) (h : ∀ c ∈ cs, c.isWhitespace) :
    splitWSAux cs [] = [] := by
  induction cs with
  | nil => rfl
  | cons c rest ih =>
    have hc : c.isWhitespace = true := h c (by simp)
    simp only [splitWSAux, hc, List.isEmpty_nil, if_true]
    exact ih fun x hx => h x (by simp [hx])

/-- A text with at least one word is not all-whitespace. -/
lemma not_allWS_of_words (text : String) (h : 0 < (pySplit text).length) :
    text.data.all (fun c => c.isWhitespace) = false := by
  by_contra hcon
  rw [Bool.not_eq_false, List.all_eq_true] at hcon
  have : splitWSAux text.data [] = [] := splitWSAux_allWS _ fun c hc => hcon c hc
  rw [pySplit, this] at h
  simp at h

/-- On a text with more words than `chunk_size` (and `overlap < chunk_size`),
`chunk_text` takes the sliding-window branch: each chunk is the join of the
word slice given by `chunk_ranges`. -/
lemma chunk_text_of_big (text : String) (cs ov : Nat) (hov : ov < cs)
    (hbig : cs < (pySplit text).length) :
    chunk_text text cs ov = (chunk_ranges (pySplit text).length cs ov).map
      (fun r => pyJoinSpace (((pySplit text).drop r.1).take (r.2 - r.1))) := by
  have hws := not_allWS_of_words text (by omega)
  rw [chunk_text, hws]
  simp only [Bool.false_eq_true, if_false]
  show (if (pySplit text).length ≤ cs then [text]
      else (chunk_ranges (pySplit text).length cs (if cs ≤ ov then cs / 4 else ov)).map
        (fun r => pyJoinSpace (((pySplit text).drop r.1).take (r.2 - r.1)))) = _
  rw [if_neg (by omega), if_neg (by omega)]

lemma splitWSAux_repWChars (n : Nat) :
    splitWSAux (repWChars n) [] = List.replicate n ['w'] := by
  induction n with
  | zero => rfl
  | succ n ih =>
    have h1 : splitWSAux (repWChars (n + 1)) [] = ['w'] :: splitWSAux (repWChars n) [] := rfl
    rw [h1, ih, List.replicate_succ]

lemma pySplit_wordText (n : Nat) : pySplit (wordText n) = List.replicate n "w" := by
  have hd : (wordText n).data = repWChars n := rfl
  rw [pySplit, hd, splitWSAux_repWChars, List.map_replicate]

/-- Every word from `start` on is covered by some emitted range, provided
the fuel is sufficient. -/
lemma chunkRangesAux_cover (total cs step : Nat) (hstep : 1 ≤ step) (hsc : step ≤ cs) :
    ∀ fuel start, total - start ≤ fuel → start < total →
      ∀ w, start ≤ w → w < total →
        ∃ r ∈ chunkRangesAux total cs step fuel start, r.1 ≤ w ∧ w < r.2 := by
  intro fuel
  induction fuel with
  | zero => intro start hf hs w _ _; exact absurd hs (by omega)
  | succ f ih =>
    intro start hf hs w hw1 hw2
    rw [chunkRangesAux, if_pos hs]
    by_cases he : total ≤ min (start + cs) total
    · exact ⟨(start, min (start + cs) total), by simp,
        hw1, show w < min (start + cs) total by omega⟩
    · rw [if_neg he]
      push_neg at he
      by_cases hw3 : w < start + step
      · exact ⟨(start, min (start + cs) total), by simp,
          hw1, show w < min (start + cs) total by omega⟩
      · push_neg at hw3
        obtain ⟨r, hr, h1, h2⟩ := ih (start + step) (by omega) (by omega) w hw3 hw2
        exact ⟨r, by simp [hr], h1, h2⟩

/-- The head of a nonempty run of the chunk loop. -/
lemma chunkRangesAux_head (total cs step f start : Nat) (hf : 0 < f) (hs : start < total) :
    (chunkRangesAux total cs step f start).head? = some (start, min (start + cs) total) := by
  cases f with
  | zero => exact absurd hf (by omega)
  | succ f => rw [chunkRangesAux, if_pos hs]; rfl

/-- Adjacent emitted ranges advance by `step`: the left range ends exactly
`cs - step` words into the right one, and ranges are nested end-to-end. -/
lemma chunkRangesAux_chain (total cs step : Nat) (hstep : 1 ≤ step) (hsc : step ≤ cs) :
    ∀ fuel start, total - start ≤ fuel → start < total →
      List.Chain' (fun r1 r2 : Nat × Nat =>
          r1.1 ≤ r2.1 ∧ r2.1 ≤ r1.2 ∧ r1.2 ≤ r2.2 ∧ r1.2 - r2.1 = cs - step)
        (chunkRangesAux total cs step fuel start) := by
  intro fuel
  induction fuel with
  | zero => intro start hf hs; exact absurd hs (by omega)
  | succ f ih =>
    intro start hf hs
    rw [chunkRangesAux, if_pos hs]
    by_cases he : total ≤ min (start + cs) total
    · rw [if_pos he]; exact List.chain'_singleton _
    · rw [if_neg he]
      push_neg at he
      have hs' : start + step < total := by omega
      have hf' : total - (start + step) ≤ f := by omega
      rw [List.chain'_cons']
      refine ⟨?_, ih (start + step) hf' hs'⟩
      intro y hy
      have hf0 : 0 < f := by omega
      rw [chunkRangesAux_head total cs step f (start + step) hf0 hs'] at hy
      simp only [Option.mem_def, Option.some.injEq] at hy
      subst hy
      exact ⟨show start ≤ start + step by omega,
        show start + step ≤ min (start + cs) total by omega,
        show min (start + cs) total ≤ min (start + step + cs) total by omega,
        show min (start + cs) total - (start + step) = cs - step by omega⟩

/-! ## Claims C2 and C3 -/

/-- C2 (amended): for an input text of exactly 2500 whitespace-separated
words, `chunk_text text 1000 200` produces 3 chunks (not 4) with word
ranges [0,1000), [800,1800), [1600,2500) of word sizes [1000, 1000, 900]
(not [1000, 1000, 500]), stepping `start` by `chunk_size - overlap = 800`
and stopping as soon as the window end reaches word 2500. -/
theorem chunk_2500_word_scenario (text : String) (h : (pySplit text).length = 2500) :
    chunk_ranges 2500 1000 200 = [(0, 1000), (800, 1800), (1600, 2500)] ∧
    chunk_text text 1000 200 =
      [pyJoinSpace ((pySplit text).take 1000),
       pyJoinSpace (((pySplit text).drop 800).take 1000),
       pyJoinSpace (((pySplit text).drop 1600).take 900)] ∧
    (chunk_text text 1000 200).length = 3 ∧
    ((pySplit text).take 1000).length = 1000 ∧
    (((pySplit text).drop 800).take 1000).length = 1000 ∧
    (((pySplit text).drop 1600).take 900).length = 900 := by
  have hr : chunk_ranges 2500 1000 200 = [(0, 1000), (800, 1800), (1600, 2500)] := by decide
  have hb := chunk_text_of_big text 1000 200 (by omega) (by omega)
  rw [h, hr] at hb
  refine ⟨hr, ?_, ?_, ?_, ?_, ?_⟩
  · rw [hb]; simp
  · rw [hb]; simp
  · simp [List.length_take, h]
  · simp [List.length_take, List.length_drop, h]
  · simp [List.length_take, List.length_drop, h]

/-- C2 counterexample: the concrete 2500-word text `wordText 2500` yields
3 chunks, not the 4 chunks claimed, and the third word range produced by
the stepping rule is [1600,2500), not [1600,2100). -/
theorem chunk_2500_word_counterexample :
    (pySplit (wordText 2500)).length = 2500 ∧
    (chunk_text (wordText 2500) 1000 200).length = 3 ∧
    ¬ (chunk_text (wordText 2500) 1000 200).length = 4 ∧
    ¬ chunk_ranges 2500 1000 200 = [(0, 1000), (800, 1800), (1600, 2100), (2100, 2500)] := by
  have hl : (pySplit (wordText 2500)).length = 2500 := by
    rw [pySplit_wordText, List.length_replicate]
  have hb := chunk_text_of_big (wordText 2500) 1000 200 (by omega) (by omega)
  rw [hl] at hb
  have hr : chunk_ranges 2500 1000 200 = [(0, 1000), (800, 1800), (1600, 2500)] := by decide
  refine ⟨hl, ?_, ?_, ?_⟩
  · rw [hb, List.length_map, hr]; rfl
  · rw [hb, List.length_map, hr]; simp
  · rw [hr]; simp

/-- C2 witness: the amended scenario instantiated at the concrete
2500-word text. -/
theorem chunk_2500_word_scenario_witness :
    chunk_text (wordText 2500) 1000 200 =
      [pyJoinSpace ((pySplit (wordText 2500)).take 1000),
       pyJoinSpace (((pySplit (wordText 2500)).drop 800).take 1000),
       pyJoinSpace (((pySplit (wordText 2500)).drop 1600).take 900)] :=
  (chunk_2500_word_scenario (wordText 2500) (by rw [pySplit_wordText, List.length_replicate])).2.1

/-- C3: for every text whose word count exceeds `chunk_size` (with
`overlap < chunk_size`), the word ranges of the chunks returned by
`chunk_text` cover every word of the input at least once, and every pair
of adjacent chunks shares exactly `overlap` words (the shared region
`[max of starts, min of ends)` has size exactly `overlap`); the chunks
returned are exactly the joins of those word ranges. -/
theorem chunk_coverage_and_overlap (text : String) (cs ov : Nat) (hov : ov < cs)
    (hbig : cs < (pySplit text).length) :
    (∀ w, w < (pySplit text).length →
      ∃ r ∈ chunk_ranges (pySplit text).length cs ov, r.1 ≤ w ∧ w < r.2) ∧
    List.Chain' (fun r1 r2 : Nat × Nat =>
        max r1.1 r2.1 ≤ min r1.2 r2.2 ∧ min r1.2 r2.2 - max r1.1 r2.1 = ov)
      (chunk_ranges (pySplit text).length cs ov) ∧
    chunk_text text cs ov = (chunk_ranges (pySplit text).length cs ov).map
      (fun r => pyJoinSpace (((pySplit text).drop r.1).take (r.2 - r.1))) := by
  have hstep : 1 ≤ cs - ov := by omega
  have hsc : cs - ov ≤ cs := by omega
  have htot : 0 < (pySplit text).length := by omega
  refine ⟨?_, ?_, chunk_text_of_big text cs ov hov hbig⟩
  · intro w hw
    exact chunkRangesAux_cover (pySplit text).length cs (cs - ov) hstep hsc
      ((pySplit text).length + 1) 0 (by omega) htot w (by omega) hw
  · have hc := chunkRangesAux_chain (pySplit text).length cs (cs - ov) hstep hsc
      ((pySplit text).length + 1) 0 (by omega) htot
    refine List.Chain'.imp ?_ hc
    intro r1 r2 hr
    obtain ⟨h1, h2, h3, h4⟩ := hr
    constructor
    · rw [max_eq_right h1, min_eq_left h3]; exact h2
    · rw [max_eq_right h1, min_eq_left h3]; omega

/-- C3 witness: coverage and exact-overlap instantiated at a concrete
5-word text with `chunk_size = 2`, `overlap = 1`. -/
theorem chunk_coverage_and_overlap_witness :
    chunk_text "a b c d e" 2 1 = (chunk_ranges (pySplit "a b c d e").length 2 1).map
      (fun r => pyJoinSpace (((pySplit "a b c d e").drop r.1).take (r.2 - r.1))) :=
  (chunk_coverage_and_overlap "a b c d e" 2 1 (by omega) (by decide)).2.2

/-! ## Validator stage lemmas -/

/-- The options stage writes at most the options field. -/
lemma vfo_fields (q : Question) (st : Stats) :
    (validate_and_fix_options q st).2.1.question = q.question ∧
    (validate_and_fix_options q st).2.1.answer = q.answer ∧
    (validate_and_fix_options q st).2.1.category = q.category ∧
    (validate_and_fix_options q st).2.1.difficulty = q.difficulty ∧
    (validate_and_fix_options q st).2.1.explanation = q.explanation := by
  unfold validate_and_fix_options
  split <;> try split
  all_goals exact ⟨rfl, rfl, rfl, rfl, rfl⟩

/-- The answer stage writes at most the answer field. -/
lemma vfa_fields (q : Question) (st : Stats) :
    (validate_and_fix_answer q st).2.1.question = q.question ∧
    (validate_and_fix_answer q st).2.1.options = q.options ∧
    (validate_and_fix_answer q st).2.1.category = q.category ∧
    (validate_and_fix_answer q st).2.1.difficulty = q.difficulty ∧
    (validate_and_fix_answer q st).2.1.explanation = q.explanation := by
  unfold validate_and_fix_answer
  split
  all_goals exact ⟨rfl, rfl, rfl, rfl, rfl⟩

/-- Category normalization writes at most the category field. -/
lemma nc_fields (q : Question) :
    (normalize_category q).question = q.question ∧
    (normalize_category q).options = q.options ∧
    (normalize_category q).answer = q.answer ∧
    (normalize_category q).difficulty = q.difficulty ∧
    (normalize_category q).explanation = q.explanation := by
  unfold normalize_category
  split
  all_goals exact ⟨rfl, rfl, rfl, rfl, rfl⟩

/-- Difficulty normalization writes at most the difficulty field, and
writes one of the three canonical values. -/
lemma canonDifficulty_mem (d : String) :
    canonDifficulty d = "Easy" ∨ canonDifficulty d = "Medium" ∨
    canonDifficulty d = "Hard" := by
  unfold canonDifficulty
  split_ifs <;> simp

/-- Difficulty normalization writes at most the difficulty field, and
writes one of the three canonical values. -/
lemma nd_fields (q : Question) :
    (normalize_difficulty q).question = q.question ∧
    (normalize_difficulty q).options = q.options ∧
    (normalize_difficulty q).answer = q.answer ∧
    (normalize_difficulty q).category = q.category ∧
    (normalize_difficulty q).explanation = q.explanation ∧
    ((normalize_difficulty q).difficulty = some "Easy" ∨
     (normalize_difficulty q).difficulty = some "Medium" ∨
     (normalize_difficulty q).difficulty = some "Hard") := by
  refine ⟨rfl, rfl, rfl, rfl, rfl, ?_⟩
  have h := canonDifficulty_mem (pyLower (pyStrip (q.difficulty.getD "")))
  show some (canonDifficulty (pyLower (pyStrip (q.difficulty.getD "")))) = some "Easy" ∨
    some (canonDifficulty (pyLower (pyStrip (q.difficulty.getD "")))) = some "Medium" ∨
    some (canonDifficulty (pyLower (pyStrip (q.difficulty.getD "")))) = some "Hard"
  rcases h with h | h | h <;> rw [h] <;> simp

/-- A successful options stage leaves the counters alone and returns a
question whose options field holds a map passing `options_map_ok`. -/
lemma vfo_true (q : Question) (st : Stats) {q2 : Question} {st2 : Stats}
    (h : validate_and_fix_options q st = (true, q2, st2)) :
    st2 = st ∧ ∃ m, q2.options = some (OptionsVal.omap m) ∧ options_map_ok m := by
  unfold validate_and_fix_options at h
  split at h
  · split at h
    · rename_i hok
      simp only [Prod.mk.injEq] at h
      obtain ⟨-, hq, hst⟩ := h
      subst hq; subst hst
      exact ⟨rfl, _, rfl, hok⟩
    · simp at h
  · simp at h
  · rename_i m hm
    split at h
    · rename_i hok
      simp only [Prod.mk.injEq] at h
      obtain ⟨-, hq, hst⟩ := h
      subst hq; subst hst
      exact ⟨rfl, m, hm, hok⟩
    · simp at h
  · rename_i hm
    split at h
    · rename_i hok
      exact absurd hok.1.1 (by decide)
    · simp at h

/-- A resolved answer key is a key of the map, provided the four keys A-D
are present (resolution returns either one of A-D directly or the key of
a map entry found by text match). -/
lemma resolve_answer_hasKey {ans : String} {m : List (String × String)}
    {a : String} {rb : Bool}
    (h : resolve_answer ans m = some (a, rb))
    (hk : hasKey m "A" ∧ hasKey m "B" ∧ hasKey m "C" ∧ hasKey m "D") :
    hasKey m a := by
  unfold resolve_answer at h
  split at h
  · rename_i hcl
    simp only [Option.some.injEq, Prod.mk.injEq] at h
    obtain ⟨h1, -⟩ := h
    rcases hcl with hc | hc | hc | hc <;> rw [← h1, hc]
    · exact hk.1
    · exact hk.2.1
    · exact hk.2.2.1
    · exact hk.2.2.2
  · split at h
    · rename_i p hp
      simp only [Option.some.injEq, Prod.mk.injEq] at h
      obtain ⟨h1, -⟩ := h
      have hmem := List.mem_of_find?_eq_some hp
      rw [← h1]
      exact List.any_eq_true.mpr ⟨p, hmem, by simp⟩
    · split at h
      · split at h
        · rename_i p hp
          simp only [Option.some.injEq, Prod.mk.injEq] at h
          obtain ⟨h1, -⟩ := h
          have hmem := List.mem_of_find?_eq_some hp
          rw [← h1]
          exact List.any_eq_true.mpr ⟨p, hmem, by simp⟩
        · simp at h
      · simp at h

/-- A successful answer stage rewrites the answer to the resolved key and
touches only the auto-correction counter. -/
lemma vfa_true (q : Question) (st : Stats) {q2 : Question} {st2 : Stats}
    (h : validate_and_fix_answer q st = (true, q2, st2)) :
    ∃ a rb, resolve_answer (q.answer.getD "") (optionsDict q) = some (a, rb) ∧
      q2 = { q with answer := some a } ∧
      (st2 = st ∨ st2 = { st with auto_corrected := st.auto_corrected + 1 }) ∧
      st2.duplicates = st.duplicates := by
  unfold validate_and_fix_answer at h
  split at h
  · rename_i kb hres
    simp only [Prod.mk.injEq] at h
    obtain ⟨-, hq, hst⟩ := h
    refine ⟨kb.1, kb.2, by rw [hres], hq.symm, ?_, ?_⟩
    · rcases hb : kb.2 <;> rw [hb] at hst <;> simp_all
    · rcases hb : kb.2 <;> rw [hb] at hst <;> simp [← hst]
  · simp at h

/-- A failing flag never comes with `(true, _, _)`. -/
lemma is_duplicate_false {t : String} {seen seen2 : List String}
    (h : is_duplicate t seen = (false, seen2)) :
    seen2 = seen ++ [normalize_text t] := by
  unfold is_duplicate at h
  split at h
  · simp at h
  · split at h
    · simp at h
    · simp only [Prod.mk.injEq] at h
      exact h.2.symm

/-- Exact corpus membership of the normalized text flags a duplicate and
leaves the corpus unchanged. -/
lemma is_duplicate_mem {t : String} {seen : List String}
    (h : normalize_text t ∈ seen) :
    is_duplicate t seen = (true, seen) := by
  unfold is_duplicate
  rw [if_pos h]

/-- Inversion of a successful `validate_question`: all six checks passed,
the stage states collapse onto the input counters, and the result is the
normalized post-answer question. -/
lemma validate_question_true_elim (q : Question) (vs : VState)
    (h : (validate_question q vs).1 = true) :
    ∃ q3 st3 q4 st4 seen,
      validate_and_fix_options q vs.stats = (true, q3, st3) ∧
      validate_and_fix_answer q3 st3 = (true, q4, st4) ∧
      ¬ factual_issue (q4.question.getD "") ∧
      is_duplicate (q4.question.getD "") vs.seen_questions = (false, seen) ∧
      validate_question q vs =
        (true, normalize_difficulty (normalize_category q4),
         { seen_questions := seen, stats := st4 }) := by
  unfold validate_question at h ⊢
  rcases h1 : validate_schema q vs.stats with ⟨b1, st1⟩
  rw [h1] at h
  cases b1 with
  | false => simp at h
  | true =>
    dsimp only at h
    have hst1 : st1 = vs.stats := by
      unfold validate_schema at h1
      split at h1 <;> simp_all
    subst hst1
    rcases h2 : validate_text_length q vs.stats with ⟨b2, st2⟩
    rw [h2] at h
    cases b2 with
    | false => simp at h
    | true =>
      dsimp only at h
      have hst2 : st2 = vs.stats := by
        unfold validate_text_length at h2
        split at h2 <;> simp_all
      subst hst2
      rcases h3 : validate_and_fix_options q vs.stats with ⟨b3, q3, st3⟩
      rw [h3] at h
      cases b3 with
      | false => simp at h
      | true =>
        dsimp only at h
        rcases h4 : validate_and_fix_answer q3 st3 with ⟨b4, q4, st4⟩
        rw [h4] at h
        cases b4 with
        | false => simp at h
        | true =>
          dsimp only at h
          rcases h5 : check_factual_issues q4 st4 with ⟨b5, st5⟩
          rw [h5] at h
          cases b5 with
          | false => simp at h
          | true =>
            dsimp only at h
            have hfi : ¬ factual_issue (q4.question.getD "") := by
              unfold check_factual_issues at h5
              split at h5 <;> simp_all
            have hst5 : st5 = st4 := by
              unfold check_factual_issues at h5
              split at h5 <;> simp_all
            subst hst5
            rcases h6 : is_duplicate (q4.question.getD "") vs.seen_questions
              with ⟨b6, seen6⟩
            rw [h6] at h
            cases b6 with
            | true => simp at h
            | false =>
              refine ⟨q3, st3, q4, st5, seen6, rfl, h4, hfi, h6, ?_⟩
              dsimp only
              rw [h2]; dsimp only
              rw [h3]; dsimp only
              rw [h4]; dsimp only
              rw [h5]; dsimp only
              rw [h6]

lemma dedup_length_eq_iff_nodup {α : Type} [DecidableEq α] (l : List α) :
    l.dedup.length = l.length ↔ l.Nodup := by
  constructor
  · intro h
    have hs : l.dedup.Sublist l := List.dedup_sublist l
    have he : l.dedup = l := hs.eq_of_length h
    rw [← he]
    exact List.nodup_dedup l
  · intro h
    rw [List.dedup_eq_self.mpr h]

/-- A duplicate option value fails the options stage. -/
lemma vfo_false_of_dup (q : Question) (st : Stats) {mm : List (String × String)}
    (hopt : q.options = some (OptionsVal.omap mm))
    (hdup : ¬ (mm.map (fun p => p.2)).Nodup) :
    (validate_and_fix_options q st).1 = false := by
  unfold validate_and_fix_options
  rw [hopt]
  dsimp only
  split
  · rename_i hok
    exact absurd ((dedup_length_eq_iff_nodup _).mp hok.2.2) hdup
  · rfl

/-! ## Claim C1 -/

/-- C1 (amended): every item retained by `validate_question` ends with an
options map CONTAINING the four keys A-D (not necessarily exactly those
four), whose A-D values are non-blank (extra values may be blank), with
ALL option values pairwise distinct; the answer field is rewritten to a
key present in the options map (not necessarily one of A-D); the
difficulty is one of Easy/Medium/Hard; and any item whose options map has
a duplicate value is rejected. -/
theorem validator_retained_invariant :
    (∀ (q : Question) (vs : VState), (validate_question q vs).1 = true →
      ∃ m a,
        ((validate_question q vs).2.1).options = some (OptionsVal.omap m) ∧
        hasKey m "A" ∧ hasKey m "B" ∧ hasKey m "C" ∧ hasKey m "D" ∧
        (∀ k ∈ (["A", "B", "C", "D"] : List String),
          pyStrip ((mlookup m k).getD "") ≠ "") ∧
        (m.map (fun p => p.2)).Nodup ∧
        ((validate_question q vs).2.1).answer = some a ∧
        hasKey m a ∧
        (((validate_question q vs).2.1).difficulty = some "Easy" ∨
         ((validate_question q vs).2.1).difficulty = some "Medium" ∨
         ((validate_question q vs).2.1).difficulty = some "Hard")) ∧
    (∀ (q : Question) (vs : VState) (mm : List (String × String)),
      q.options = some (OptionsVal.omap mm) →
      ¬ (mm.map (fun p => p.2)).Nodup →
      (validate_question q vs).1 = false) := by
  constructor
  · intro q vs h
    obtain ⟨q3, st3, q4, st4, seen, h3, h4, hfi, h6, heq⟩ :=
      validate_question_true_elim q vs h
    obtain ⟨hst3, m, hop3, hok⟩ := vfo_true q vs.stats h3
    obtain ⟨a, rb, hres, hq4, hstd, hdupd⟩ := vfa_true q3 st3 h4
    have hq1 : (validate_question q vs).2.1 =
        normalize_difficulty (normalize_category q4) := by rw [heq]
    have hop4 : q4.options = some (OptionsVal.omap m) := by rw [hq4]; exact hop3
    have hmdict : optionsDict q3 = m := by unfold optionsDict; rw [hop3]
    rw [hmdict] at hres
    refine ⟨m, a, ?_, hok.1.1, hok.1.2.1, hok.1.2.2.1, hok.1.2.2.2,
      hok.2.1, (dedup_length_eq_iff_nodup _).mp hok.2.2, ?_, ?_, ?_⟩
    · rw [hq1, (nd_fields _).2.1, (nc_fields _).2.1]
      exact hop4
    · rw [hq1, (nd_fields _).2.2.1, (nc_fields _).2.2.1, hq4]
    · exact resolve_answer_hasKey hres
        ⟨hok.1.1, hok.1.2.1, hok.1.2.2.1, hok.1.2.2.2⟩
    · rw [hq1]
      exact (nd_fields _).2.2.2.2.2
  · intro q vs mm hopt hdup
    cases hb : (validate_question q vs).1 with
    | false => rfl
    | true =>
      obtain ⟨q3, st3, q4, st4, seen, h3, h4, hfi, h6, heq⟩ :=
        validate_question_true_elim q vs hb
      have hfo := vfo_false_of_dup q vs.stats hopt hdup
      rw [h3] at hfo
      simp at hfo

/-- C1 counterexample: the concrete item `qExtraKeys` is retained
although its (unchanged) options map has six keys, key F carries the
empty string, and the resolved answer "E" is not among A-D. -/
theorem validator_retained_counterexample :
    (validate_question qExtraKeys {}).1 = true ∧
    ((validate_question qExtraKeys {}).2.1).options =
      some (OptionsVal.omap
        [("A", "Douala"), ("B", "Yaounde"), ("C", "Buea"), ("D", "Bamenda"),
         ("E", "Extra"), ("F", "")]) ∧
    ((validate_question qExtraKeys {}).2.1).answer = some "E" := by
  refine ⟨by decide, by decide, by decide⟩

/-- C1 witness: the retained-item invariant instantiated at the concrete
well-formed item `qGood`. -/
theorem validator_retained_witness :
    ∃ m a,
      ((validate_question qGood {}).2.1).options = some (OptionsVal.omap m) ∧
      hasKey m "A" ∧ hasKey m "B" ∧ hasKey m "C" ∧ hasKey m "D" ∧
      (∀ k ∈ (["A", "B", "C", "D"] : List String),
        pyStrip ((mlookup m k).getD "") ≠ "") ∧
      (m.map (fun p => p.2)).Nodup ∧
      ((validate_question qGood {}).2.1).answer = some a ∧
      hasKey m a ∧
      (((validate_question qGood {}).2.1).difficulty = some "Easy" ∨
       ((validate_question qGood {}).2.1).difficulty = some "Medium" ∨
       ((validate_question qGood {}).2.1).difficulty = some "Hard") :=
  validator_retained_invariant.1 qGood {} (by decide)

/-! ## Claim C4 -/

lemma resolve_answer_lowercase_b (m : List (String × String)) :
    resolve_answer "b" m = some ("B", false) := by
  have hc : pyUpper (pyStrip "b") = "B" := by decide
  unfold resolve_answer
  rw [hc]
  simp

lemma get_close_match1_none {word : String} {poss : List String}
    (h : ∀ x ∈ poss, ¬ mkRat 4 5 ≤ ratioQ x.data word.data) :
    get_close_match1 word poss = none := by
  unfold get_close_match1
  have hqual : poss.filterMap (fun x =>
      if mkRat 4 5 ≤ ratioQ x.data word.data then some (ratioQ x.data word.data, x)
      else none) = [] := by
    rw [List.filterMap_eq_nil_iff]
    intro x hx
    rw [if_neg (h x hx)]
  rw [hqual]

/-- C4 (amended): (1) an item whose answer field is the lowercase key
"b" is accepted by the answer stage with its answer set to "B" and the
counters untouched; (2) an item whose answer field equals the exact text
of option C, PROVIDED the normalized answer is not itself one of the
keys A-D and neither option A nor option B matches the answer text up to
`strip().lower()` (the source scans A first and would resolve a
case-variant of an earlier option to that earlier key), is accepted with
its answer set to "C" and the auto-correction counter incremented; (3) an
answer resolvable by neither key normalization, nor exact text match, nor
fuzzy match at similarity at least 0.8, is rejected with the
invalid-answer counter incremented. -/
theorem answer_resolution :
    (∀ (q : Question) (st : Stats), q.answer = some "b" →
      validate_and_fix_answer q st = (true, { q with answer := some "B" }, st)) ∧
    (∀ (q : Question) (st : Stats) (oa ob oc od : String),
      q.options = some (OptionsVal.omap
        [("A", oa), ("B", ob), ("C", oc), ("D", od)]) →
      q.answer = some oc →
      ¬ (pyUpper (pyStrip oc) = "A" ∨ pyUpper (pyStrip oc) = "B" ∨
         pyUpper (pyStrip oc) = "C" ∨ pyUpper (pyStrip oc) = "D") →
      pyLower (pyStrip oa) ≠ pyLower (pyStrip oc) →
      pyLower (pyStrip ob) ≠ pyLower (pyStrip oc) →
      validate_and_fix_answer q st =
        (true, { q with answer := some "C" },
         { st with auto_corrected := st.auto_corrected + 1 })) ∧
    (∀ (q : Question) (st : Stats) (m : List (String × String)),
      q.options = some (OptionsVal.omap m) →
      ¬ (pyUpper (pyStrip (q.answer.getD "")) = "A" ∨
         pyUpper (pyStrip (q.answer.getD "")) = "B" ∨
         pyUpper (pyStrip (q.answer.getD "")) = "C" ∨
         pyUpper (pyStrip (q.answer.getD "")) = "D") →
      (∀ p ∈ m, pyLower (pyStrip p.2) ≠ pyLower (pyStrip (q.answer.getD ""))) →
      (∀ p ∈ m, ¬ mkRat 4 5 ≤ ratioQ p.2.data (q.answer.getD "").data) →
      validate_and_fix_answer q st =
        (false, q, { st with invalid_answer := st.invalid_answer + 1 })) := by
  refine ⟨?_, ?_, ?_⟩
  · intro q st hans
    unfold validate_and_fix_answer
    rw [hans]
    simp only [Option.getD_some]
    rw [resolve_answer_lowercase_b]
    rfl
  · intro q st oa ob oc od hopt hans hnk ha hb
    have hmdict : optionsDict q = [("A", oa), ("B", ob), ("C", oc), ("D", od)] := by
      unfold optionsDict; rw [hopt]
    unfold validate_and_fix_answer
    rw [hmdict, hans]
    simp only [Option.getD_some]
    unfold resolve_answer
    rw [if_neg hnk]
    rw [List.find?_cons_of_neg _ (by simp [ha]),
        List.find?_cons_of_neg _ (by simp [hb]),
        List.find?_cons_of_pos _ (by simp)]
    rfl
  · intro q st m hopt hnk hexact hfuzzy
    have hmdict : optionsDict q = m := by unfold optionsDict; rw [hopt]
    unfold validate_and_fix_answer
    rw [hmdict]
    unfold resolve_answer
    rw [if_neg hnk]
    rw [List.find?_eq_none.mpr (fun p hp => by simp [hexact p hp])]
    rw [get_close_match1_none (fun x hx => ?_)]
    obtain ⟨p, hp, hpx⟩ := List.mem_map.mp hx
    rw [← hpx]
    exact hfuzzy p hp

/-- C4 counterexample: `qCaseClash` has answer text exactly equal to
option C ("Rome"), yet the stage resolves it to key "A" (whose value
"rome" matches first up to case), not to "C". -/
theorem answer_resolution_counterexample :
    qCaseClash.answer = some "Rome" ∧
    mlookup [("A", "rome"), ("B", "x1"), ("C", "Rome"), ("D", "z2")] "C" =
      some "Rome" ∧
    validate_and_fix_answer qCaseClash {} =
      (true, { qCaseClash with answer := some "A" }, { auto_corrected := 1 }) ∧
    ¬ (validate_and_fix_answer qCaseClash {}).2.1.answer = some "C" := by
  refine ⟨rfl, by decide, by decide, by decide⟩

/-- C4 witness: the three amended branches instantiated at concrete
items. -/
theorem answer_resolution_witness :
    validate_and_fix_answer { answer := some "b" } {} =
      (true, { answer := some "B" }, {}) ∧
    validate_and_fix_answer qTextAnswer {} =
      (true, { qTextAnswer with answer := some "C" }, { auto_corrected := 1 }) ∧
    validate_and_fix_answer qNoAnswer {} =
      (false, qNoAnswer, { invalid_answer := 1 }) :=
  ⟨answer_resolution.1 { answer := some "b" } {} rfl,
   answer_resolution.2.1 qTextAnswer {} "Paris" "London" "Rome" "Berlin"
     rfl rfl (by decide) (by decide) (by decide),
   answer_resolution.2.2 qNoAnswer {}
     [("A", "Paris"), ("B", "London"), ("C", "Rome"), ("D", "Berlin")]
     rfl (by decide) (by decide) (by decide)⟩

/-- Forward characterization of `validate_question` on an item that
passes all checks up to duplicate screening but whose normalized text is
already in the corpus. -/
lemma validate_question_dup (q : Question) (vs : VState) {qo qa : Question}
    {sto sta : Stats}
    (hs : has_required_fields q) (hl : ¬ question_length_bad q)
    (ho : validate_and_fix_options q vs.stats = (true, qo, sto))
    (ha : validate_and_fix_answer qo sto = (true, qa, sta))
    (hf : ¬ factual_issue (qa.question.getD ""))
    (hdup : normalize_text (qa.question.getD "") ∈ vs.seen_questions) :
    validate_question q vs =
      (false, qa, { seen_questions := vs.seen_questions,
                    stats := { sta with duplicates := sta.duplicates + 1 } }) := by
  unfold validate_question
  rw [show validate_schema q vs.stats = (true, vs.stats) from by
      unfold validate_schema; rw [if_pos hs]]
  dsimp only
  rw [show validate_text_length q vs.stats = (true, vs.stats) from by
      unfold validate_text_length; rw [if_neg hl]]
  dsimp only
  rw [ho]
  dsimp only
  rw [ha]
  dsimp only
  rw [show check_factual_issues qa sta = (true, sta) from by
      unfold check_factual_issues; rw [if_neg hf]]
  dsimp only
  rw [is_duplicate_mem hdup]

/-! ## Claim C8 -/

/-- C8: within one validation pass, (1) a question text not flagged as a
duplicate has its normalized text added to the seen corpus, and (2) if a
first item is retained and a second item passing all checks before
duplicate screening has a question text equal to the first one after
normalization, the second is rejected as a duplicate, incrementing the
duplicates counter, so the pass keeps the first item only. -/
theorem duplicate_screening :
    (∀ (t : String) (seen : List String),
      (is_duplicate t seen).1 = false →
      (is_duplicate t seen).2 = seen ++ [normalize_text t]) ∧
    (∀ (q1 q2 : Question) (vs : VState) (q2o q2a : Question) (st2o st2a : Stats),
      (validate_question q1 vs).1 = true →
      normalize_text (q2.question.getD "") = normalize_text (q1.question.getD "") →
      has_required_fields q2 →
      ¬ question_length_bad q2 →
      validate_and_fix_options q2 (validate_question q1 vs).2.2.stats =
        (true, q2o, st2o) →
      validate_and_fix_answer q2o st2o = (true, q2a, st2a) →
      ¬ factual_issue (q2a.question.getD "") →
      (validate_question q2 (validate_question q1 vs).2.2).1 = false ∧
      (validate_question q2 (validate_question q1 vs).2.2).2.2.stats.duplicates =
        (validate_question q1 vs).2.2.stats.duplicates + 1 ∧
      (validate_questions_loop [q1, q2] vs).1 = [(validate_question q1 vs).2.1]) := by
  constructor
  · intro t seen h
    rcases he : is_duplicate t seen with ⟨b, seen2⟩
    rw [he] at h
    cases b with
    | true => simp at h
    | false => exact is_duplicate_false he
  · intro q1 q2 vs q2o q2a st2o st2a h1 hnorm h2s h2l h2o h2a h2f
    obtain ⟨q3, st3, q4, st4, seen, h3, h4, hfi, h6, heq⟩ :=
      validate_question_true_elim q1 vs h1
    have hseen : (validate_question q1 vs).2.2.seen_questions = seen := by rw [heq]
    have happend : seen = vs.seen_questions ++
        [normalize_text (q4.question.getD "")] := is_duplicate_false h6
    have hq4q : q4.question = q1.question := by
      obtain ⟨a, rb, hres, hq4, -, -⟩ := vfa_true q3 st3 h4
      have hv := (vfo_fields q1 vs.stats).1
      rw [h3] at hv
      rw [hq4]
      exact hv
    have hq2aq : q2a.question = q2.question := by
      have hva := (vfa_fields q2o st2o).1
      rw [h2a] at hva
      have hvo := (vfo_fields q2 (validate_question q1 vs).2.2.stats).1
      rw [h2o] at hvo
      rw [hva, hvo]
    have hmem : normalize_text (q2a.question.getD "") ∈
        (validate_question q1 vs).2.2.seen_questions := by
      rw [hq2aq, hnorm, hseen, happend, ← hq4q]
      simp
    have hst2o : st2o = (validate_question q1 vs).2.2.stats :=
      (vfo_true q2 (validate_question q1 vs).2.2.stats h2o).1
    have hdup2a : st2a.duplicates = st2o.duplicates := by
      obtain ⟨-, -, -, -, -, hd⟩ := vfa_true q2o st2o h2a
      exact hd
    have hvq2 : validate_question q2 (validate_question q1 vs).2.2 =
        (false, q2a,
         { seen_questions := (validate_question q1 vs).2.2.seen_questions,
           stats := { st2a with duplicates := st2a.duplicates + 1 } }) :=
      validate_question_dup q2 (validate_question q1 vs).2.2 h2s h2l h2o h2a h2f hmem
    refine ⟨by rw [hvq2], ?_, ?_⟩
    · rw [hvq2]
      show st2a.duplicates + 1 = (validate_question q1 vs).2.2.stats.duplicates + 1
      rw [hdup2a, hst2o]
    show (if (validate_question q1 vs).1 then
        (validate_question q1 vs).2.1 ::
          (validate_questions_loop [q2] (validate_question q1 vs).2.2).1
      else (validate_questions_loop [q2] (validate_question q1 vs).2.2).1,
      (validate_questions_loop [q2] (validate_question q1 vs).2.2).2).1 =
      [(validate_question q1 vs).2.1]
    rw [h1]
    show (validate_question q1 vs).2.1 ::
        (if (validate_question q2 (validate_question q1 vs).2.2).1 then
          (validate_question q2 (validate_question q1 vs).2.2).2.1 ::
            (validate_questions_loop []
              (validate_question q2 (validate_question q1 vs).2.2).2.2).1
        else (validate_questions_loop []
          (validate_question q2 (validate_question q1 vs).2.2).2.2).1) =
      [(validate_question q1 vs).2.1]
    rw [hvq2]
    rfl

/-- C8 witness: the two France questions differing only in casing and
punctuation; the second is rejected as a duplicate and only the first is
kept. -/
theorem duplicate_screening_witness :
    (validate_question qFrance2 (validate_question qFrance1 {}).2.2).1 = false ∧
    (validate_question qFrance2 (validate_question qFrance1 {}).2.2).2.2.stats.duplicates =
      (validate_question qFrance1 {}).2.2.stats.duplicates + 1 ∧
    (validate_questions_loop [qFrance1, qFrance2] {}).1 =
      [(validate_question qFrance1 {}).2.1] :=
  duplicate_screening.2 qFrance1 qFrance2 {} qFrance2 qFrance2
    (validate_question qFrance1 {}).2.2.stats (validate_question qFrance1 {}).2.2.stats
    (by decide) (by decide) (by decide) (by decide) (by decide) (by decide) (by decide)

/-! ## Claims C9 and C10 -/

/-- The validator never writes the question or explanation field, whether
the item is retained or rejected at any stage. -/
lemma vq_qeProj (q : Question) (vs : VState) :
    qeProj (validate_question q vs).2.1 = qeProj q := by
  unfold validate_question
  rcases h1 : validate_schema q vs.stats with ⟨b1, st1⟩
  cases b1
  · rfl
  · dsimp only
    rcases h2 : validate_text_length q st1 with ⟨b2, st2⟩
    cases b2
    · rfl
    · dsimp only
      rcases h3 : validate_and_fix_options q st2 with ⟨b3, q3, st3⟩
      have hf3 := vfo_fields q st2
      rw [h3] at hf3
      have hq3 : qeProj q3 = qeProj q := by
        unfold qeProj; rw [hf3.1, hf3.2.2.2.2]
      cases b3
      · exact hq3
      · dsimp only
        rcases h4 : validate_and_fix_answer q3 st3 with ⟨b4, q4, st4⟩
        have hf4 := vfa_fields q3 st3
        rw [h4] at hf4
        have hq4 : qeProj q4 = qeProj q := by
          unfold qeProj at hq3 ⊢
          rw [hf4.1, hf4.2.2.2.2]
          exact hq3
        cases b4
        · exact hq4
        · dsimp only
          rcases h5 : check_factual_issues q4 st4 with ⟨b5, st5⟩
          cases b5
          · exact hq4
          · dsimp only
            rcases h6 : is_duplicate (q4.question.getD "") vs.seen_questions
              with ⟨b6, s6⟩
            cases b6
            · have hnc := nc_fields q4
              have hnd := nd_fields (normalize_category q4)
              unfold qeProj at hq4 ⊢
              rw [hnd.1, hnd.2.2.2.2.1, hnc.1, hnc.2.2.2.2]
              exact hq4
            · exact hq4

/-- The filtering loop keeps a subsequence of the input, up to the
question/explanation projection. -/
lemma loop_sublist (qs : List Question) (vs : VState) :
    List.Sublist ((validate_questions_loop qs vs).1.map qeProj)
      (qs.map qeProj) := by
  induction qs generalizing vs with
  | nil => simp [validate_questions_loop]
  | cons q rest ih =>
    show List.Sublist
      ((if (validate_question q vs).1 then
          (validate_question q vs).2.1 ::
            (validate_questions_loop rest (validate_question q vs).2.2).1
        else (validate_questions_loop rest (validate_question q vs).2.2).1).map qeProj)
      ((q :: rest).map qeProj)
    by_cases hb : (validate_question q vs).1 = true
    · rw [if_pos hb, List.map_cons, List.map_cons, vq_qeProj]
      exact List.Sublist.cons₂ _ (ih _)
    · rw [if_neg hb, List.map_cons]
      exact List.Sublist.cons _ (ih _)

/-- C9: `validate_questions` returns, in the original input order, a
subsequence of its input items in which only the options, answer,
category and difficulty fields may have been rewritten: the question and
explanation fields are never modified, whether an item is retained or
rejected. -/
theorem validator_output_frame :
    (∀ (q : Question) (vs : VState),
      ((validate_question q vs).2.1.question, (validate_question q vs).2.1.explanation) =
        (q.question, q.explanation)) ∧
    (∀ (qs : List Question) (vs : VState),
      List.Sublist ((validate_questions qs vs).1.map qeProj) (qs.map qeProj)) := by
  constructor
  · intro q vs
    exact vq_qeProj q vs
  · intro qs vs
    exact loop_sublist qs _

/-! ## Claim C10 -/

/-- Relation between the counters before and after a processing step:
the seven never-reset counters only grow and `total_input` is kept. -/
def StatsStep (s t : Stats) : Prop :=
  StatsMono s t ∧ t.total_input = s.total_input

lemma statsStep_refl (s : Stats) : StatsStep s s := by
  unfold StatsStep StatsMono
  omega

lemma statsStep_trans {s t u : Stats} (h1 : StatsStep s t) (h2 : StatsStep t u) :
    StatsStep s u := by
  unfold StatsStep StatsMono at h1 h2 ⊢
  omega

lemma statsStep_schema (q : Question) (st : Stats) :
    StatsStep st (validate_schema q st).2 := by
  unfold validate_schema
  split <;> (unfold StatsStep StatsMono; dsimp only; omega)

lemma statsStep_length (q : Question) (st : Stats) :
    StatsStep st (validate_text_length q st).2 := by
  unfold validate_text_length
  split <;> (unfold StatsStep StatsMono; dsimp only; omega)

lemma statsStep_options (q : Question) (st : Stats) :
    StatsStep st (validate_and_fix_options q st).2.2 := by
  unfold validate_and_fix_options
  split <;> try split
  all_goals (unfold StatsStep StatsMono; dsimp only; omega)

lemma statsStep_answer (q : Question) (st : Stats) :
    StatsStep st (validate_and_fix_answer q st).2.2 := by
  unfold validate_and_fix_answer
  split
  · split <;> (unfold StatsStep StatsMono; dsimp only; omega)
  · unfold StatsStep StatsMono; dsimp only; omega

lemma statsStep_factual (q : Question) (st : Stats) :
    StatsStep st (check_factual_issues q st).2 := by
  unfold check_factual_issues
  split <;> (unfold StatsStep StatsMono; dsimp only; omega)

/-- One `validate_question` call only grows the never-reset counters and
keeps `total_input`. -/
lemma statsStep_vq (q : Question) (vs : VState) :
    StatsStep vs.stats (validate_question q vs).2.2.stats := by
  unfold validate_question
  rcases h1 : validate_schema q vs.stats with ⟨b1, st1⟩
  have hs1 : StatsStep vs.stats st1 := by
    have := statsStep_schema q vs.stats; rw [h1] at this; exact this
  cases b1
  · exact hs1
  · dsimp only
    rcases h2 : validate_text_length q st1 with ⟨b2, st2⟩
    have hs2 : StatsStep vs.stats st2 := by
      have := statsStep_length q st1; rw [h2] at this; exact statsStep_trans hs1 this
    cases b2
    · exact hs2
    · dsimp only
      rcases h3 : validate_and_fix_options q st2 with ⟨b3, q3, st3⟩
      have hs3 : StatsStep vs.stats st3 := by
        have := statsStep_options q st2; rw [h3] at this; exact statsStep_trans hs2 this
      cases b3
      · exact hs3
      · dsimp only
        rcases h4 : validate_and_fix_answer q3 st3 with ⟨b4, q4, st4⟩
        have hs4 : StatsStep vs.stats st4 := by
          have := statsStep_answer q3 st3; rw [h4] at this; exact statsStep_trans hs3 this
        cases b4
        · exact hs4
        · dsimp only
          rcases h5 : check_factual_issues q4 st4 with ⟨b5, st5⟩
          have hs5 : StatsStep vs.stats st5 := by
            have := statsStep_factual q4 st4; rw [h5] at this
            exact statsStep_trans hs4 this
          cases b5
          · exact hs5
          · dsimp only
            rcases h6 : is_duplicate (q4.question.getD "") vs.seen_questions
              with ⟨b6, s6⟩
            cases b6
            · exact hs5
            · refine statsStep_trans hs5 ?_
              unfold StatsStep StatsMono
              dsimp only
              omega

/-- The filtering loop only grows the never-reset counters and keeps
`total_input`. -/
lemma statsStep_loop (qs : List Question) (vs : VState) :
    StatsStep vs.stats (validate_questions_loop qs vs).2.stats := by
  induction qs generalizing vs with
  | nil => exact statsStep_refl _
  | cons q rest ih =>
    show StatsStep vs.stats
      (validate_questions_loop rest (validate_question q vs).2.2).2.stats
    exact statsStep_trans (statsStep_vq q vs) (ih _)

/-- C10: each call to `validate_questions` clears the duplicate corpus
(the result does not depend on the incoming corpus) and overwrites
`total_input` and `total_output`, but never resets the per-reason
rejection counters or the auto-correction counter, so a second call on
the same validator accumulates them. -/
theorem validator_stats_accumulation :
    (∀ (qs : List Question) (s1 s2 : List String) (st : Stats),
      validate_questions qs ⟨s1, st⟩ = validate_questions qs ⟨s2, st⟩) ∧
    (∀ (qs : List Question) (vs : VState),
      (validate_questions qs vs).2.stats.total_input = qs.length) ∧
    (∀ (qs : List Question) (vs : VState),
      (validate_questions qs vs).2.stats.total_output =
        (validate_questions qs vs).1.length) ∧
    (∀ (qs : List Question) (vs : VState),
      StatsMono vs.stats (validate_questions qs vs).2.stats) := by
  refine ⟨fun qs s1 s2 st => rfl, ?_, fun qs vs => rfl, ?_⟩
  · intro qs vs
    have h := statsStep_loop qs
      { seen_questions := [], stats := { vs.stats with total_input := qs.length } }
    exact h.2
  · intro qs vs
    have h := statsStep_loop qs
      { seen_questions := [], stats := { vs.stats with total_input := qs.length } }
    have h1 := h.1
    unfold validate_questions
    unfold StatsMono at h1 ⊢
    dsimp only at h1 ⊢
    omega

/-! ## Claims C6 and C7 -/

lemma pySliceTo_nil {α : Type} (n : Int) : pySliceTo ([] : List α) n = [] := by
  unfold pySliceTo
  split <;> simp

/-- C6 (amended): the run returns the error statistic (`{"error": ...}`)
exactly when the chunk list is empty; a nonempty chunk list with target
count exactly 0 makes the run raise `ZeroDivisionError` (the
unconditional success-rate print of generator.py line 370 divides by the
target), so the caller gets an exception, not an error statistic; a
nonempty chunk list with a negative target returns an empty item list
together with ordinary statistics; per-call failures never make the run
fail, whatever the oracle does. -/
theorem run_failure_condition :
    (∀ (oracle : Nat → Nat → AttemptOutcome) (nchunks : Nat) (tq : Int) (mr : Nat),
      runConfigError (generate_questions oracle nchunks tq mr) = true ↔ nchunks = 0) ∧
    (∀ (oracle : Nat → Nat → AttemptOutcome) (tq : Int) (mr : Nat),
      generate_questions oracle 0 tq mr =
        RunOutcome.returns [] (RunStats.configError "No chunks provided")) ∧
    (∀ (oracle : Nat → Nat → AttemptOutcome) (nchunks mr : Nat),
      nchunks ≠ 0 →
      generate_questions oracle nchunks 0 mr = RunOutcome.raised "ZeroDivisionError") ∧
    (∀ (oracle : Nat → Nat → AttemptOutcome) (nchunks : Nat) (tq : Int) (mr : Nat),
      nchunks ≠ 0 → tq < 0 →
      generate_questions oracle nchunks tq mr =
        RunOutcome.returns [] (RunStats.stats 0 tq nchunks 0 0 0)) := by
  refine ⟨?_, fun oracle tq mr => rfl, ?_, ?_⟩
  · intro oracle nchunks tq mr
    unfold generate_questions
    by_cases h : nchunks = 0
    · rw [if_pos h]
      simp [runConfigError, isConfigError, h]
    · rw [if_neg h]
      by_cases h0 : tq = 0
      · rw [if_pos h0]
        simp [runConfigError, h]
      · rw [if_neg h0]
        simp [runConfigError, isConfigError, h]
  · intro oracle nchunks mr hn
    unfold generate_questions
    rw [if_neg hn, if_pos rfl]
  · intro oracle nchunks tq mr hn htq
    unfold generate_questions
    rw [if_neg hn, if_neg (by omega : ¬ tq = 0)]
    cases nchunks with
    | zero => exact absurd rfl hn
    | succ n =>
      have hloop : generate_questions_loop oracle tq mr (n + 1) 0 [] {} =
          (([] : List Question), ({} : GenStats)) := by
        unfold generate_questions_loop
        rw [if_pos (by simpa using le_of_lt htq)]
      rw [hloop]
      simp [pySliceTo_nil]

/-- C6 counterexample: against the original claim, one chunk with target
count 0 — an invalid configuration per the claim — raises
`ZeroDivisionError` rather than returning the error statistic, and two
chunks with target count -3 return an empty item list with ORDINARY
statistics, again with no error statistic surfaced. -/
theorem run_failure_counterexample :
    generate_questions (fun _ _ => AttemptOutcome.apiError) 1 0 3 =
      RunOutcome.raised "ZeroDivisionError" ∧
    runConfigError (generate_questions (fun _ _ => AttemptOutcome.apiError) 1 0 3) =
      false ∧
    generate_questions (fun _ _ => AttemptOutcome.apiError) 2 (-3) 1 =
      RunOutcome.returns [] (RunStats.stats 0 (-3) 2 0 0 0) ∧
    runConfigError (generate_questions (fun _ _ => AttemptOutcome.apiError) 2 (-3) 1) =
      false := by
  refine ⟨by decide, by decide, by decide, by decide⟩

/-- C6 witness: the amended run-failure condition instantiated at a
concrete oracle — an empty chunk list, a single chunk with target 0, and
two chunks with a negative target. -/
theorem run_failure_witness :
    generate_questions (fun _ _ => AttemptOutcome.apiError) 0 5 3 =
      RunOutcome.returns [] (RunStats.configError "No chunks provided") ∧
    generate_questions (fun _ _ => AttemptOutcome.apiError) 3 0 2 =
      RunOutcome.raised "ZeroDivisionError" ∧
    generate_questions (fun _ _ => AttemptOutcome.apiError) 2 (-3) 1 =
      RunOutcome.returns [] (RunStats.stats 0 (-3) 2 0 0 0) :=
  ⟨run_failure_condition.2.1 (fun _ _ => AttemptOutcome.apiError) 5 3,
   run_failure_condition.2.2.1 (fun _ _ => AttemptOutcome.apiError) 3 2
     (by decide),
   run_failure_condition.2.2.2 (fun _ _ => AttemptOutcome.apiError) 2 (-3) 1
     (by decide) (by decide)⟩

/-- C7 evidence: a chunk (index 7) whose response fails JSON parsing on
all 3 attempts contributes zero items but is NOT recorded in
`failed_chunks` and nothing is logged — only the transport-error path
records and logs the chunk on final failure. -/
theorem parse_failure_not_recorded :
    generate_from_chunk (fun _ => AttemptOutcome.badParse) 7 3 {} =
      ([], { total_api_calls := 1 }) ∧
    ({ total_api_calls := 1 } : GenStats).failed_chunks = [] ∧
    ({ total_api_calls := 1 } : GenStats).error_log = [] ∧
    generate_from_chunk (fun _ => AttemptOutcome.apiError) 7 3 {} =
      ([], { total_api_calls := 1, failed_chunks := [7],
             error_log := [("API_ERROR", 7)] }) := by
  refine ⟨by decide, rfl, rfl, by decide⟩

/-! ## Claim C5 -/

lemma clarityBase_bounds (q : Question) :
    0 ≤ clarityBase q ∧ clarityBase q ≤ 1 := by
  unfold clarityBase
  split_ifs with h1 h2
  · norm_num
  · have hlt : ((q.question.getD "").length : ℚ) < 30 := by exact_mod_cast h2
    constructor
    · positivity
    · rw [div_le_one (by norm_num : (0:ℚ) < 30)]
      linarith
  · have h200 : 200 < (q.question.getD "").length := by omega
    have hgt : (200 : ℚ) < ((q.question.getD "").length : ℚ) := by exact_mod_cast h200
    have hmin0 : (0 : ℚ) ≤ min ((((q.question.getD "").length : ℚ) - 200) / 100) 1 :=
      le_min (div_nonneg (by linarith) (by norm_num)) zero_le_one
    exact ⟨le_max_left 0 _, max_le (by norm_num) (by linarith)⟩

lemma score_clarity_bounds (q : Question) :
    0 ≤ score_question_clarity q ∧ score_question_clarity q ≤ 1 := by
  unfold score_question_clarity
  obtain ⟨hb0, hb1⟩ := clarityBase_bounds q
  split_ifs
  · exact ⟨le_min (by norm_num) (by linarith), min_le_left _ _⟩
  · exact ⟨hb0, hb1⟩

lemma score_balanced_bounds (q : Question) :
    0 ≤ score_balanced_options q ∧ score_balanced_options q ≤ 1 := by
  have hd : ∀ vals : List String, (0 : ℚ) ≤ distinctScore vals := by
    intro vals
    unfold distinctScore
    split_ifs
    · norm_num
    · positivity
  have hb : ∀ vals : List String, (0 : ℚ) ≤ balanceScore vals := by
    intro vals
    unfold balanceScore
    split_ifs <;> norm_num
  unfold score_balanced_options
  split
  · split_ifs
    · exact ⟨le_min (by norm_num) (add_nonneg (hd _) (hb _)), min_le_left _ _⟩
    · norm_num
  · norm_num

lemma score_answer_bounds (q : Question) :
    0 ≤ score_valid_answer q ∧ score_valid_answer q ≤ 1 := by
  unfold score_valid_answer
  split_ifs <;> norm_num

lemma explanationBase_bounds (q : Question) :
    0 ≤ explanationBase q ∧ explanationBase q ≤ 1 := by
  unfold explanationBase
  split_ifs with h1 h2
  · norm_num
  · norm_num
  · have hlt : ((pyStrip (q.explanation.getD "")).length : ℚ) < 15 := by
      have : (pyStrip (q.explanation.getD "")).length < 15 := by omega
      exact_mod_cast this
    constructor
    · positivity
    · have : ((pyStrip (q.explanation.getD "")).length : ℚ) / 15 ≤ 1 := by
        rw [div_le_one (by norm_num : (0:ℚ) < 15)]
        linarith
      linarith

lemma score_explanation_bounds (q : Question) :
    0 ≤ score_explanation_quality q ∧ score_explanation_quality q ≤ 1 := by
  unfold score_explanation_quality
  obtain ⟨hb0, hb1⟩ := explanationBase_bounds q
  split_ifs
  · norm_num
  · exact ⟨le_min (by norm_num) (by linarith), min_le_left _ _⟩
  · exact ⟨hb0, hb1⟩

lemma score_metadata_bounds (q : Question) :
    0 ≤ score_metadata_quality q ∧ score_metadata_quality q ≤ 1 := by
  unfold score_metadata_quality
  split_ifs <;> norm_num

lemma round3_bounds {x : ℚ} (h0 : 0 ≤ x) (h1 : x ≤ 1) :
    0 ≤ round3 x ∧ round3 x ≤ 1 := by
  unfold round3
  have hlow : (0 : ℤ) ≤ round (x * 1000) := by
    rw [round_eq]
    exact Int.floor_nonneg.mpr (by linarith)
  have hhigh : round (x * 1000) ≤ 1000 := by
    rw [round_eq]
    have hlt : (⌊x * 1000 + 1 / 2⌋ : ℤ) < 1001 := Int.floor_lt.mpr (by push_cast; linarith)
    omega
  constructor
  · exact div_nonneg (by exact_mod_cast hlow) (by norm_num)
  · rw [div_le_one (by norm_num : (0:ℚ) < 1000)]
    exact_mod_cast hhigh

lemma round3_one : round3 1 = 1 := by
  unfold round3
  have h : round ((1 : ℚ) * 1000) = 1000 := by
    rw [round_eq]
    rw [Int.floor_eq_iff]
    constructor <;> norm_num
  rw [h]
  norm_num

/-- C5: every input scores in [0, 1] at a granularity of 1/1000 (the
value is rounded to 3 decimal places), and a maximally well-formed item
(question of 30-200 characters ending in "?", four pairwise-distinct
options whose length variance is below 100 — i.e. length standard
deviation below 10 —, a valid answer key present in the options, an
explanation of at least 50 characters ending in ".", a non-blank
category of at least 3 characters, and difficulty Easy/Medium/Hard)
scores exactly 1.0. -/
theorem score_bounds_and_perfect :
    (∀ q : Question, 0 ≤ score_question_quality q ∧ score_question_quality q ≤ 1 ∧
      ∃ n : ℤ, score_question_quality q = (n : ℚ) / 1000) ∧
    (∀ (q : Question) (m : List (String × String)),
      30 ≤ (q.question.getD "").length → (q.question.getD "").length ≤ 200 →
      pyEndsWith (pyStrip (q.question.getD "")) '?' = true →
      q.options = some (OptionsVal.omap m) → m.length = 4 →
      (m.map (fun p => p.2)).dedup.length = 4 →
      optionLengthVariance (m.map (fun p => p.2)) < 100 →
      q.answer.getD "" ∈ (["A", "B", "C", "D"] : List String) →
      answer_in_options (q.answer.getD "") q.options →
      50 ≤ (pyStrip (q.explanation.getD "")).length →
      pyEndsWith (pyStrip (q.explanation.getD "")) '.' = true →
      q.category.getD "" ≠ "" → pyStrip (q.category.getD "") ≠ "" →
      3 ≤ (q.category.getD "").length →
      (q.difficulty.getD "" = "Easy" ∨ q.difficulty.getD "" = "Medium" ∨
       q.difficulty.getD "" = "Hard") →
      score_question_quality q = 1) := by
  constructor
  · intro q
    obtain ⟨c0, c1⟩ := score_clarity_bounds q
    obtain ⟨b0, b1⟩ := score_balanced_bounds q
    obtain ⟨a0, a1⟩ := score_answer_bounds q
    obtain ⟨e0, e1⟩ := score_explanation_bounds q
    obtain ⟨m0, m1⟩ := score_metadata_bounds q
    have ht0 : 0 ≤ score_question_clarity q * (1 / 5) +
        score_balanced_options q * (1 / 5) + score_valid_answer q * (1 / 5) +
        score_explanation_quality q * (1 / 5) +
        score_metadata_quality q * (1 / 5) := by linarith
    have ht1 : score_question_clarity q * (1 / 5) +
        score_balanced_options q * (1 / 5) + score_valid_answer q * (1 / 5) +
        score_explanation_quality q * (1 / 5) +
        score_metadata_quality q * (1 / 5) ≤ 1 := by linarith
    obtain ⟨r0, r1⟩ := round3_bounds ht0 ht1
    exact ⟨r0, r1, round (_ * 1000), rfl⟩
  · intro q m hq1 hq2 hq3 hopt hm4 hdis hvar hans1 hans2 hexp1 hexp2 hcat1 hcat2 hcat3 hdiff
    have hclar : score_question_clarity q = 1 := by
      unfold score_question_clarity clarityBase
      rw [if_pos hq3, if_pos ⟨hq1, hq2⟩]
      norm_num
    have hbal : score_balanced_options q = 1 := by
      unfold score_balanced_options
      rw [hopt]
      dsimp only
      rw [if_pos hm4]
      unfold distinctScore balanceScore
      rw [if_pos hdis, if_pos hvar]
      norm_num
    have hans : score_valid_answer q = 1 := by
      unfold score_valid_answer
      rw [if_pos ⟨hans1, hans2⟩]
    have hexp : score_explanation_quality q = 1 := by
      unfold score_explanation_quality explanationBase
      have hne : pyStrip (q.explanation.getD "") ≠ "" := by
        intro he
        rw [he] at hexp1
        simp at hexp1
      rw [if_neg hne, if_pos hexp2, if_pos hexp1]
      norm_num
    have hmet : score_metadata_quality q = 1 := by
      unfold score_metadata_quality
      rw [if_pos ⟨hcat1, hcat2, hcat3⟩, if_pos hdiff]
      norm_num
    unfold score_question_quality
    rw [hclar, hbal, hans, hexp, hmet]
    have : (1 : ℚ) * (1 / 5) + 1 * (1 / 5) + 1 * (1 / 5) + 1 * (1 / 5) + 1 * (1 / 5) = 1 := by
      norm_num
    rw [this, round3_one]

lemma qPerfect_variance :
    optionLengthVariance
      ([("A", "Douala"), ("B", "Yaound"), ("C", "Bament"), ("D", "Garoua")].map
        (fun p => p.2)) < 100 := by
  unfold optionLengthVariance
  simp only [List.map_cons, List.map_nil,
    show ("Douala" : String).length = 6 from rfl,
    show ("Yaound" : String).length = 6 from rfl,
    show ("Bament" : String).length = 6 from rfl,
    show ("Garoua" : String).length = 6 from rfl,
    List.sum_cons, List.sum_nil, List.length_cons, List.length_nil]
  norm_num

/-- C5 witness: the concrete item `qPerfect` scores exactly 1.0. -/
theorem score_bounds_and_perfect_witness :
    score_question_quality qPerfect = 1 :=
  score_bounds_and_perfect.2 qPerfect
    [("A", "Douala"), ("B", "Yaound"), ("C", "Bament"), ("D", "Garoua")]
    (by decide) (by decide) (by decide) rfl rfl (by decide) qPerfect_variance
    (by decide) (by decide) (by decide) (by decide) (by decide) (by decide)
    (by decide) (by decide)

end QGen
